import Mathlib

/-!
Shallow embedding of `vertica_python/vertica/cursor.py`: the statement-execution
layer of a message-oriented database client.  The cursor reads protocol
messages from a connection channel, keeps a single-message lookahead slot
(`_message`), and exposes row iteration, multi-result-set navigation, and a
bulk-load ("COPY") driver.

Modelling conventions:
* Python in-place mutation plus exceptions becomes `Cursor → Except Err α × Cursor`
  (the state is returned even on the error path, as the Python object survives
  a raised exception).
* The connection collaborator (not part of the source file) is a record holding
  the inbound message stream, the log of written messages, the log of messages
  delegated to `process_message`, and the transaction status.
* A blocking `read_message()` on an exhausted stream is modelled as the error
  `Err.blocked`.  Unbounded `while True` read loops are encoded with fuel; every
  iteration consumes one message from the stream, so `stream.length + 1` fuel is
  always sufficient (fuel exhaustion is unreachable, kept as `Err.blocked`).
* Python truthiness of a row (`while row:`) is modelled by `Row.truthy`:
  `None`, the empty list and the empty ordered dict are falsy.
-/

namespace VerticaCursor

/-- Raw wire field values (and converted values) are modelled as naturals. -/
abbrev RawValue := Nat

/-- A column descriptor.  Modelled from the spec: the `Column` class lives in
`vertica/column.py`, outside the given source; the spec describes it as a
(name, wire type, conversion rule) descriptor whose job here is to supply the
field name and convert a raw field value to a typed value.  We keep the name
and the conversion function. -/
structure Column where
  name : String
  convert : RawValue → RawValue

/-- Inbound protocol message kinds consumed by the cursor.  `RowDescription`
carries its fields already as column descriptors (building `Column(fd,
unicode_error)` from a field description is collaborator code outside the
source file).  `other` stands for any message kind the cursor does not itself
interpret (notices, parameter status, ...). -/
inductive Msg where
  | errorResponse (diag : String)
  | rowDescription (fields : List Column)
  | dataRow (values : List RawValue)
  | commandComplete
  | readyForQuery (txStatus : Nat)
  | copyInResponse
  | other (tag : Nat)

/-- Printable kind of a message, used in protocol-error diagnostics
(the Python code interpolates `str(self._message)`). -/
def Msg.kindName : Msg → String
  | .errorResponse _ => "ErrorResponse"
  | .rowDescription _ => "RowDescription"
  | .dataRow _ => "DataRow"
  | .commandComplete => "CommandComplete"
  | .readyForQuery _ => "ReadyForQuery"
  | .copyInResponse => "CopyInResponse"
  | .other _ => "Other"

/-- Outbound messages written to the channel.  `copyData` is a single in-memory
payload of the given byte size; `copyStream` is a streamed source of the given
size together with the configured chunk size (its chunked serialization lives
in the messages module, outside the source file). -/
inductive OutMsg where
  | query (sql : String)
  | copyData (size : Nat)
  | copyStream (size : Nat) (bufferSize : Nat)
  | copyDone

/-- Modelled from the spec: the number of data-chunk wire messages the
connection emits when serializing one outbound message.  The chunking of
`CopyStream` is implemented in the messages module (outside the source file);
the spec states a streamed source of size S with chunk size C yields
⌈S∕C⌉ chunks, and an in-memory payload exactly one chunk. -/
def OutMsg.wireChunks : OutMsg → Nat
  | .query _ => 0
  | .copyData _ => 1
  | .copyStream size bufferSize => (size + bufferSize - 1) / bufferSize
  | .copyDone => 0

/-- Whether an outbound message is the copy-done signal. -/
def OutMsg.isCopyDone : OutMsg → Bool
  | .copyDone => true
  | _ => false

/-- The connection channel collaborator.  `stream` is the sequence of inbound
messages not yet read; `written` the outbound messages in write order;
`processed` the messages delegated to the channel's generic processor (the
cursor passes it whatever sits in the lookahead slot, hence `Option Msg`). -/
structure Connection where
  stream : List Msg
  written : List OutMsg
  processed : List (Option Msg)
  transaction_status : Option Nat
  isClosed : Bool

/-- `connection.read_message()`: pop the next inbound message.  `none` models
the blocking read on an exhausted stream. -/
def Connection.read_message (conn : Connection) : Option (Msg × Connection) :=
  match conn.stream with
  | [] => none
  | m :: rest => some (m, { conn with stream := rest })

/-- `connection.write(message)`. -/
def Connection.write (conn : Connection) (m : OutMsg) : Connection :=
  { conn with written := conn.written ++ [m] }

/-- `connection.process_message(message)`: generic handling of messages the
cursor does not interpret; modelled as logging. -/
def Connection.process_message (conn : Connection) (m : Option Msg) : Connection :=
  { conn with processed := conn.processed ++ [m] }

/-- The `cursor_type` configuration: `None`, `list`/`'list'`, `dict`/`'dict'`,
or anything else (rejected at formatting time). -/
inductive CursorType where
  | default
  | listType
  | dictType
  | unrecognized

/-- Errors raised by cursor operations.  `closedError` is
`errors.Error('Cursor is closed')`; `queryError` is
`errors.QueryError.from_error_response(msg, operation)` carrying the server
diagnostic and the submitted SQL text; `protocolError` is the `errors.Error`
raised by `nextset` on an unexpected message; `typeError` models the Python
`TypeError`/`IndexError` when formatting subscripts a missing or too-short
description; `cursorTypeError` the `Exception('Unrecognized cursor_type')`;
`blocked` a read on an exhausted stream. -/
inductive Err where
  | closedError
  | queryError (diag : String) (sql : String)
  | protocolError (text : String)
  | typeError
  | cursorTypeError
  | blocked
  deriving DecidableEq

/-- A formatted row: positional list (`format_row_as_array`) or ordered
name-keyed mapping (`format_row_as_dict`). -/
inductive Row where
  | array (vals : List RawValue)
  | dict (entries : List (String × RawValue))
  deriving DecidableEq

/-- Python truthiness of a fetched row: empty list and empty dict are falsy. -/
def Row.truthy : Row → Bool
  | .array vals => !vals.isEmpty
  | .dict entries => !entries.isEmpty

/-- The cursor state: closed flag, lookahead slot `_message`, result
description, row count (`-1` = unknown sentinel), configured array size and
row-shape mode, the optional deferred error field (initialized to `none` and
never assigned in the source), and the connection. -/
structure Cursor where
  _closed : Bool
  _message : Option Msg
  description : Option (List Column)
  rowcount : Int
  arraysize : Nat
  cursor_type : CursorType
  unicode_error : String
  error : Option Err
  connection : Connection

/-- `Cursor.__init__(connection, cursor_type, unicode_error)`: open, empty
lookahead slot, no deferred error, `None` description, row count sentinel
`-1`, array size `1`. -/
def initialCursor (connection : Connection) (cursor_type : CursorType)
    (unicode_error : String) : Cursor :=
  { _closed := false, _message := none, description := none, rowcount := -1,
    arraysize := 1, cursor_type := cursor_type, unicode_error := unicode_error,
    error := none, connection := connection }

/-- `Cursor.closed()`: the cursor's own flag or the channel's closed state. -/
def Cursor.isClosed (c : Cursor) : Bool :=
  c._closed || c.connection.isClosed

/-- `Cursor.close()`: only sets the cursor's closed flag. -/
def close (c : Cursor) : Cursor :=
  { c with _closed := true }

/-- `self.description[idx]`, `None` when the description is `None`
(`TypeError`) or the index is out of range (`IndexError`). -/
def colAt (desc : Option (List Column)) (idx : Nat) : Option Column :=
  match desc with
  | none => none
  | some cols => cols.get? idx

/-- Index-threaded run of the comprehension
`[description[idx].convert(value) for idx, value in enumerate(values)]`:
convert each value through the column at its position, failing (`none`, the
raised `TypeError`/`IndexError`) when the description is missing or too
short. -/
def convertFrom (desc : Option (List Column)) :
    Nat → List RawValue → Option (List RawValue)
  | _, [] => some []
  | idx, v :: vs =>
    match colAt desc idx with
    | none => none
    | some col =>
      match convertFrom desc (idx + 1) vs with
      | none => none
      | some rest => some (col.convert v :: rest)

/-- `Cursor.format_row_as_array(row_data)`. -/
def format_row_as_array (desc : Option (List Column)) (values : List RawValue) :
    Option (List RawValue) :=
  convertFrom desc 0 values

/-- One insertion step of Python's `OrderedDict` construction: an existing key
keeps its position and gets the new value; a new key is appended. -/
def odInsert (entries : List (String × RawValue)) (k : String) (v : RawValue) :
    List (String × RawValue) :=
  if entries.any (fun p => p.1 == k) then
    entries.map (fun p => if p.1 == k then (k, v) else p)
  else
    entries ++ [(k, v)]

/-- Index-threaded construction of
`OrderedDict((description[idx].name, description[idx].convert(value))
for idx, value in enumerate(values))`: insert each converted pair in
enumeration order with `OrderedDict`'s duplicate-key semantics. -/
def dictFrom (desc : Option (List Column)) :
    Nat → List RawValue → List (String × RawValue) →
    Option (List (String × RawValue))
  | _, [], entries => some entries
  | idx, v :: vs, entries =>
    match colAt desc idx with
    | none => none
    | some col => dictFrom desc (idx + 1) vs (odInsert entries col.name (col.convert v))

/-- `Cursor.format_row_as_dict(row_data)`. -/
def format_row_as_dict (desc : Option (List Column)) (values : List RawValue) :
    Option (List (String × RawValue)) :=
  dictFrom desc 0 values []

/-- `Cursor.row_formatter(row_data)`: dispatch on the configured row-shape
mode. -/
def row_formatter (c : Cursor) (values : List RawValue) : Except Err Row :=
  match c.cursor_type with
  | .default | .listType =>
    match format_row_as_array c.description values with
    | some vals => .ok (.array vals)
    | none => .error .typeError
  | .dictType =>
    match format_row_as_dict c.description values with
    | some entries => .ok (.dict entries)
    | none => .error .typeError
  | .unrecognized => .error .cursorTypeError

/-- `Cursor.fetchone()`: a `DataRow` in the slot advances the row count
(first row → 1, else +1), is formatted, and one more message is pulled into
the slot; a terminal marker returns `None` leaving everything unchanged; any
other slot content (including an empty slot) is delegated to the channel's
generic processor and `None` is returned, the slot unchanged. -/
def fetchone (c : Cursor) : Except Err (Option Row) × Cursor :=
  match c._message with
  | some (.dataRow values) =>
    let c := { c with rowcount := if c.rowcount = -1 then 1 else c.rowcount + 1 }
    match row_formatter c values with
    | .error e => (.error e, c)
    | .ok row =>
      match c.connection.read_message with
      | none => (.error .blocked, c)
      | some (m, conn) => (.ok (some row), { c with _message := some m, connection := conn })
  | some (.readyForQuery _) => (.ok none, c)
  | some .commandComplete => (.ok none, c)
  | _ => (.ok none, { c with connection := c.connection.process_message c._message })

/-- Fuel-indexed body of the `list(self.iterate())` loop: repeatedly
`fetchone()`, keep going while the returned row is truthy.  A falsy row
(`None`, or an empty formatted row) ends the loop without being yielded.
Fuel exhaustion is unreachable when called with `stream.length + 1` fuel,
because each continuing iteration consumes one inbound message. -/
def fetchallAux : Nat → Cursor → Except Err (List Row) × Cursor
  | 0, c => (.error .blocked, c)
  | fuel + 1, c =>
    match fetchone c with
    | (.error e, c') => (.error e, c')
    | (.ok none, c') => (.ok [], c')
    | (.ok (some row), c') =>
      if row.truthy then
        match fetchallAux fuel c' with
        | (.error e, c'') => (.error e, c'')
        | (.ok rows, c'') => (.ok (row :: rows), c'')
      else (.ok [], c')

/-- `Cursor.fetchall()`: materialize `iterate()` into a list. -/
def fetchall (c : Cursor) : Except Err (List Row) × Cursor :=
  fetchallAux (c.connection.stream.length + 1) c

/-- Fuel-indexed body of the `fetchmany` loop: collect up to `size` truthy
rows, stopping early on a falsy one (which is not collected). -/
def fetchmanyAux : Nat → Cursor → Nat → List Row → Except Err (List Row) × Cursor
  | 0, c, _, _ => (.error .blocked, c)
  | fuel + 1, c, size, acc =>
    match fetchone c with
    | (.error e, c') => (.error e, c')
    | (.ok none, c') => (.ok acc, c')
    | (.ok (some row), c') =>
      if row.truthy then
        if acc.length + 1 ≥ size then (.ok (acc ++ [row]), c')
        else fetchmanyAux fuel c' size (acc ++ [row])
      else (.ok acc, c')

/-- `Cursor.fetchmany(size)`: Python's `if not size: size = self.arraysize`
makes both a missing size and `0` fall back to the configured array size. -/
def fetchmany (c : Cursor) (size : Option Nat) : Except Err (List Row) × Cursor :=
  let effective :=
    match size with
    | none => c.arraysize
    | some 0 => c.arraysize
    | some s => s
  fetchmanyAux (c.connection.stream.length + 1) c effective []

/-- Fuel-indexed body of `flush_to_query_ready`'s read loop: read and discard
messages until a `ReadyForQuery` arrives; record its transaction status on the
connection and leave it in the lookahead slot. -/
def flushQueryReadyAux : Nat → Cursor → Except Err Unit × Cursor
  | 0, c => (.error .blocked, c)
  | fuel + 1, c =>
    match c.connection.read_message with
    | none => (.error .blocked, c)
    | some (m, conn) =>
      match m with
      | .readyForQuery ts =>
        (.ok (),
          { c with _message := some m,
                   connection := { conn with transaction_status := some ts } })
      | _ => flushQueryReadyAux fuel { c with connection := conn }

/-- `Cursor.flush_to_query_ready()`: no-op when the slot is empty or already a
`ReadyForQuery`; otherwise drain to the next `ReadyForQuery`. -/
def flush_to_query_ready (c : Cursor) : Except Err Unit × Cursor :=
  match c._message with
  | none => (.ok (), c)
  | some (.readyForQuery _) => (.ok (), c)
  | some _ => flushQueryReadyAux (c.connection.stream.length + 1) c

/-- Fuel-indexed body of `flush_to_command_complete`'s read loop: read and
discard messages until a `CommandComplete` arrives and leave it in the slot. -/
def flushCommandCompleteAux : Nat → Cursor → Except Err Unit × Cursor
  | 0, c => (.error .blocked, c)
  | fuel + 1, c =>
    match c.connection.read_message with
    | none => (.error .blocked, c)
    | some (m, conn) =>
      match m with
      | .commandComplete =>
        (.ok (), { c with _message := some m, connection := conn })
      | _ => flushCommandCompleteAux fuel { c with connection := conn }

/-- `Cursor.flush_to_command_complete()`: no-op when the slot is empty, a
`ReadyForQuery` or a `CommandComplete`; otherwise drain to the next
`CommandComplete`. -/
def flush_to_command_complete (c : Cursor) : Except Err Unit × Cursor :=
  match c._message with
  | none => (.ok (), c)
  | some (.readyForQuery _) => (.ok (), c)
  | some .commandComplete => (.ok (), c)
  | some _ => flushCommandCompleteAux (c.connection.stream.length + 1) c

/-- Fuel-indexed body of `execute`'s read loop.  Every message read is first
stored in the lookahead slot (`self._message = self.connection.read_message()`),
then classified: an error reply raises a `QueryError` carrying the submitted
SQL text; a row description replaces the result description and reading
continues; a `DataRow`, `ReadyForQuery` or `CommandComplete` stops the loop;
anything else is delegated to the generic processor and reading continues. -/
def executeLoopAux : Nat → Cursor → String → Except Err Unit × Cursor
  | 0, c, _ => (.error .blocked, c)
  | fuel + 1, c, operation =>
    match c.connection.read_message with
    | none => (.error .blocked, c)
    | some (m, conn) =>
      let c := { c with _message := some m, connection := conn }
      match m with
      | .errorResponse d => (.error (.queryError d operation), c)
      | .rowDescription fields =>
        executeLoopAux fuel { c with description := some fields } operation
      | .dataRow _ => (.ok (), c)
      | .readyForQuery _ => (.ok (), c)
      | .commandComplete => (.ok (), c)
      | _ =>
        executeLoopAux fuel
          { c with connection := c.connection.process_message (some m) } operation

/-- `Cursor.execute(operation)`: fail with the closed error when the cursor or
its channel is closed (before any I/O); resynchronize to `ReadyForQuery`;
reset the row count to the unknown sentinel; write the `Query` message; then
run the classification loop.  The operation text is taken already interpolated
(the parameter-substitution helper the source references is defined outside
this file and is not exercised by the claims). -/
def execute (c : Cursor) (operation : String) : Except Err Unit × Cursor :=
  if c.isClosed then (.error .closedError, c)
  else
    match flush_to_query_ready c with
    | (.error e, c') => (.error e, c')
    | (.ok _, c') =>
      let c' := { c' with rowcount := -1 }
      let c' := { c' with connection := c'.connection.write (.query operation) }
      executeLoopAux (c'.connection.stream.length + 1) c' operation

/-- `Cursor.nextset()`: first flush to `CommandComplete`; an empty slot or a
`ReadyForQuery` slot yields `none`; a `CommandComplete` slot reads one more
message — a `RowDescription` means another set follows (prefetch one further
message into the slot, return `some true`), a `ReadyForQuery` means no more
sets (`none`), anything else is a protocol error.  The description is NOT
updated here. -/
def nextset (c : Cursor) : Except Err (Option Bool) × Cursor :=
  match flush_to_command_complete c with
  | (.error e, c') => (.error e, c')
  | (.ok _, c') =>
    match c'._message with
    | none => (.ok none, c')
    | some .commandComplete =>
      match c'.connection.read_message with
      | none => (.error .blocked, c')
      | some (m, conn) =>
        let c'' := { c' with _message := some m, connection := conn }
        match m with
        | .rowDescription _ =>
          match c''.connection.read_message with
          | none => (.error .blocked, c'')
          | some (m2, conn2) =>
            (.ok (some true), { c'' with _message := some m2, connection := conn2 })
        | .readyForQuery _ => (.ok none, c'')
        | _ =>
          (.error (.protocolError
            ("Unexpected nextset() state after CommandComplete: " ++ m.kindName)), c'')
    | some (.readyForQuery _) => (.ok none, c')
    | some m =>
      (.error (.protocolError ("Unexpected nextset() state: " ++ m.kindName)), c')

/-- The bulk-load payload: Python branches on `hasattr(data, "read")` — an
in-memory payload becomes one `CopyData` message, a streamed source one
`CopyStream` message (chunked during serialization). -/
inductive Payload where
  | memory (size : Nat)
  | streamed (size : Nat)

/-- The write phase triggered by `CopyInResponse` inside `copy`. -/
def writeCopyPayload (conn : Connection) (data : Payload) (bufferSize : Nat) :
    Connection :=
  match data with
  | .memory size => conn.write (.copyData size)
  | .streamed size => conn.write (.copyStream size bufferSize)

/-- Fuel-indexed body of `copy`'s read loop.  An error reply raises a
`QueryError` (at any point, before or during the data phase); every other
message is first delegated to the generic processor; `ReadyForQuery` ends the
loop; `CopyInResponse` triggers the data phase (payload message then
`CopyDone`) and the loop continues.  The lookahead slot is untouched (the
loop uses a local variable). -/
def copyLoopAux : Nat → Cursor → String → Payload → Nat → Except Err Unit × Cursor
  | 0, c, _, _, _ => (.error .blocked, c)
  | fuel + 1, c, sql, data, bufferSize =>
    match c.connection.read_message with
    | none => (.error .blocked, c)
    | some (m, conn) =>
      match m with
      | .errorResponse d => (.error (.queryError d sql), { c with connection := conn })
      | _ =>
        let conn := conn.process_message (some m)
        match m with
        | .readyForQuery _ => (.ok (), { c with connection := conn })
        | .copyInResponse =>
          let conn := (writeCopyPayload conn data bufferSize).write .copyDone
          copyLoopAux fuel { c with connection := conn } sql data bufferSize
        | _ => copyLoopAux fuel { c with connection := conn } sql data bufferSize

/-- `Cursor.copy(sql, data, buffer_size)`: fail with the closed error when the
cursor or its channel is closed (before any I/O); resynchronize to
`ReadyForQuery`; write the `Query`; run the copy loop; finally re-raise the
deferred `error` field if set (it never is in the source). -/
def copy (c : Cursor) (sql : String) (data : Payload) (bufferSize : Nat) :
    Except Err Unit × Cursor :=
  if c.isClosed then (.error .closedError, c)
  else
    match flush_to_query_ready c with
    | (.error e, c') => (.error e, c')
    | (.ok _, c') =>
      let c' := { c' with connection := c'.connection.write (.query sql) }
      match copyLoopAux (c'.connection.stream.length + 1) c' sql data bufferSize with
      | (.error e, c'') => (.error e, c'')
      | (.ok _, c'') =>
        match c''.error with
        | some e => (.error e, c'')
        | none => (.ok (), c'')

/-- Message classifiers used to describe reply-stream shapes. -/
def Msg.isReadyForQuery : Msg → Bool
  | .readyForQuery _ => true
  | _ => false

/-- Whether a message is the statement-complete marker. -/
def Msg.isCommandComplete : Msg → Bool
  | .commandComplete => true
  | _ => false

/-- Messages on which `execute`'s read loop keeps reading (neither an error
reply nor a loop-terminating `DataRow`/`ReadyForQuery`/`CommandComplete`). -/
def Msg.continuesExecuteLoop : Msg → Bool
  | .rowDescription _ => true
  | .copyInResponse => true
  | .other _ => true
  | _ => false

/-- Messages on which `copy`'s read loop keeps reading without entering the
data phase (neither an error reply, nor `CopyInResponse`, nor
`ReadyForQuery`). -/
def Msg.continuesCopyLoop : Msg → Bool
  | .errorResponse _ => false
  | .copyInResponse => false
  | .readyForQuery _ => false
  | _ => true

/-- Messages that are neither an error reply nor `ReadyForQuery` (the two
kinds that end `copy`'s read loop). -/
def Msg.notErrorOrReady : Msg → Bool
  | .errorResponse _ => false
  | .readyForQuery _ => false
  | _ => true

/-- The single outbound message `copy`'s data phase writes before `CopyDone`. -/
def payloadMsg (data : Payload) (bufferSize : Nat) : OutMsg :=
  match data with
  | .memory size => .copyData size
  | .streamed size => .copyStream size bufferSize

/-- Row-count evolution of consuming `k` rows through `fetchone`: the first
row turns the `-1` sentinel into `1`, later rows increment. -/
def bumpRowcount : Int → Nat → Int
  | r0, 0 => r0
  | r0, k + 1 => bumpRowcount (if r0 = -1 then 1 else r0 + 1) k

/-- Running a resynchronization primitive twice in a row (the second run only
happens when the first returned normally, as an exception would propagate). -/
def runTwice (f : Cursor → Except Err Unit × Cursor) (c : Cursor) :
    Except Err Unit × Cursor :=
  match f c with
  | (.ok _, c') => f c'
  | r => r

/-- Sample column with identity conversion, for concrete witnesses. -/
def idCol (n : String) : Column :=
  { name := n, convert := fun v => v }

/-- Sample connection holding a given inbound stream. -/
def sampleConn (st : List Msg) : Connection :=
  { stream := st, written := [], processed := [], transaction_status := none,
    isClosed := false }

/-- Sample open cursor with a given lookahead slot, inbound stream and
description. -/
def sampleCur (slot : Option Msg) (st : List Msg) (desc : Option (List Column)) :
    Cursor :=
  { _closed := false, _message := slot, description := desc, rowcount := -1,
    arraysize := 1, cursor_type := .default, unicode_error := "strict",
    error := none, connection := sampleConn st }

/-- Whether a message is a result-description reply. -/
def Msg.isRowDescription : Msg → Bool
  | .rowDescription _ => true
  | _ => false

/-- Sample closed cursor. -/
def closedSample : Cursor :=
  { sampleCur none [] none with _closed := true }

/-- Sample cursor at the start of a two-row result set. -/
def twoRowSample : Cursor :=
  sampleCur (some (.dataRow [1])) [.dataRow [2], .commandComplete]
    (some [idCol "a"])

/-- Sample cursor whose single result row carries no values (the formatted
row is empty, hence falsy in Python). -/
def emptyRowSample : Cursor :=
  sampleCur (some (.dataRow [])) [.commandComplete] (some [])

/-- Sample cursor at a statement-complete marker with another result set
following. -/
def setBoundarySample : Cursor :=
  sampleCur (some .commandComplete) [.rowDescription [idCol "b"], .dataRow [5]]
    none

/-- Sample cursor for the bulk-load driver: one informational message, the
copy-ready reply, the completion and batch-ready replies. -/
def copySample : Cursor :=
  sampleCur none [.other 0, .copyInResponse, .commandComplete, .readyForQuery 1]
    none

/-- Sample cursor whose reply stream yields an error before any row. -/
def errorReplySample : Cursor :=
  sampleCur none [.rowDescription [idCol "a"], .errorResponse "boom"] none

/-- Sample cursor at a statement-complete marker, with a previous result
set's description still installed and a new set following. -/
def staleDescSample : Cursor :=
  sampleCur (some .commandComplete) [.rowDescription [idCol "b"], .dataRow [5]]
    (some [idCol "a"])

/-- Sample cursor holding an unread row, with a batch-ready reply further
down the stream. -/
def unreadRowsSample : Cursor :=
  sampleCur (some (.dataRow [7])) [.other 1, .readyForQuery 2, .other 3] none

/-- Sample cursor holding an unread row, with a statement-complete reply
further down the stream. -/
def unreadRowsSampleCC : Cursor :=
  sampleCur (some (.dataRow [7])) [.other 1, .commandComplete, .other 3] none

/-- Sample cursor holding an unread row, used for the closed-session
fetch theorems. -/
def closableSample : Cursor :=
  sampleCur (some (.dataRow [4])) [.commandComplete] (some [idCol "a"])

/-- The session is positioned at the start of a result set consisting of
`rows` data rows followed by a `CommandComplete`: the first of those messages
sits in the lookahead slot, the remainder (and then `rest`) on the channel. -/
def resultSetLoaded (c : Cursor) (rows : List (List RawValue))
    (rest : List Msg) : Prop :=
  match rows with
  | [] => c._message = some Msg.commandComplete ∧ c.connection.stream = rest
  | r :: rs => c._message = some (Msg.dataRow r) ∧
      c.connection.stream = rs.map Msg.dataRow ++ Msg.commandComplete :: rest

/-- Sample open cursor about to execute into a fresh result set with its own
description. -/
def descSample : Cursor :=
  sampleCur none [.rowDescription [idCol "b"], .dataRow [5]] none

/-! ### Helper lemmas -/

/-- C4: `execute` and `copy` on a closed session (own flag or channel closed)
fail with the closed error before any I/O: the cursor — in particular the
connection's written log and unread stream — is unchanged. -/
theorem closed_session_rejects_execute_and_copy (c : Cursor)
    (operation sql : String) (data : Payload) (bufferSize : Nat)
    (h : c.isClosed = true) :
    execute c operation = (.error .closedError, c) ∧
    copy c sql data bufferSize = (.error .closedError, c) ∧
    (execute c operation).2.connection.written = c.connection.written ∧
    (execute c operation).2.connection.stream = c.connection.stream ∧
    (copy c sql data bufferSize).2.connection.written = c.connection.written ∧
    (copy c sql data bufferSize).2.connection.stream = c.connection.stream := by
  simp [execute, copy, h]

/-- Witness for C4 at a concrete closed cursor. -/
theorem closed_session_rejects_execute_and_copy_witness :
    execute closedSample "SELECT 1" = (.error .closedError, closedSample) ∧
    copy closedSample "COPY t FROM STDIN" (.memory 3) 1
      = (.error .closedError, closedSample) :=
  ⟨(closed_session_rejects_execute_and_copy closedSample "SELECT 1"
      "COPY t FROM STDIN" (.memory 3) 1 rfl).1,
   (closed_session_rejects_execute_and_copy closedSample "SELECT 1"
      "COPY t FROM STDIN" (.memory 3) 1 rfl).2.1⟩

/-- C2: with a `CommandComplete` in the lookahead slot, `nextset()` returns
`some true` exactly when the next message is a `RowDescription` (prefetching
one further message into the slot); returns `none` when it is a
`ReadyForQuery`; raises a protocol error for any other kind; and it returns
`none` when no message has ever been read or when the slot already holds a
`ReadyForQuery`. -/
theorem nextset_classification (c : Cursor) :
    (c._message = some .commandComplete →
      (∀ fields m2 rest,
        c.connection.stream = .rowDescription fields :: m2 :: rest →
        nextset c = (.ok (some true),
          { c with _message := some m2,
                   connection := { c.connection with stream := rest } })) ∧
      (∀ ts rest, c.connection.stream = .readyForQuery ts :: rest →
        nextset c = (.ok none,
          { c with _message := some (.readyForQuery ts),
                   connection := { c.connection with stream := rest } })) ∧
      (∀ m rest, c.connection.stream = m :: rest →
        m.isRowDescription = false → m.isReadyForQuery = false →
        (nextset c).1 = .error (.protocolError
          ("Unexpected nextset() state after CommandComplete: " ++ m.kindName)))) ∧
    (c._message = none → nextset c = (.ok none, c)) ∧
    (∀ ts, c._message = some (.readyForQuery ts) → nextset c = (.ok none, c)) := by
  refine ⟨fun h => ⟨?_, ?_, ?_⟩, fun h => ?_, fun ts h => ?_⟩
  · intro fields m2 rest hs
    simp [nextset, flush_to_command_complete, h, Connection.read_message, hs]
  · intro ts rest hs
    simp [nextset, flush_to_command_complete, h, Connection.read_message, hs]
  · intro m rest hs h1 h2
    cases m <;>
      simp_all [nextset, flush_to_command_complete, Connection.read_message,
        Msg.isRowDescription, Msg.isReadyForQuery, Msg.kindName]
  · simp [nextset, flush_to_command_complete, h]
  · simp [nextset, flush_to_command_complete, h]

/-- Witness for C2: a concrete set boundary followed by a new result set. -/
theorem nextset_classification_witness :
    nextset setBoundarySample = (.ok (some true),
      { setBoundarySample with
          _message := some (.dataRow [5]),
          connection := { setBoundarySample.connection with stream := [] } }) :=
  ((nextset_classification setBoundarySample).1 rfl).1 [idCol "b"] (.dataRow [5])
    [] rfl

/-- Draining run of `flush_to_query_ready`'s read loop: given enough fuel, a
stream of non-`ReadyForQuery` messages followed by a `ReadyForQuery` is
consumed up to and including that marker, which lands in the slot with its
transaction status recorded. -/
theorem flushQueryReadyAux_drain (pre : List Msg) :
    ∀ (fuel : Nat) (c : Cursor) (ts : Nat) (rest : List Msg),
    pre.length < fuel →
    (∀ m ∈ pre, m.isReadyForQuery = false) →
    c.connection.stream = pre ++ .readyForQuery ts :: rest →
    flushQueryReadyAux fuel c
      = (.ok (), { c with
          _message := some (.readyForQuery ts),
          connection := { c.connection with
            stream := rest, transaction_status := some ts } }) := by
  induction pre with
  | nil =>
    intro fuel c ts rest hfuel _ hs
    cases fuel with
    | zero => omega
    | succ f => simp [flushQueryReadyAux, Connection.read_message, hs]
  | cons m pre' ih =>
    intro fuel c ts rest hfuel hpre hs
    cases fuel with
    | zero => simp at hfuel
    | succ f =>
      have hm := hpre m (by simp)
      have ih' := ih f
        { c with connection :=
            { c.connection with stream := pre' ++ .readyForQuery ts :: rest } }
        ts rest (by simpa using Nat.lt_of_succ_lt_succ hfuel)
        (fun x hx => hpre x (by simp [hx])) rfl
      cases m <;>
        simp_all [flushQueryReadyAux, Connection.read_message, Msg.isReadyForQuery]

/-- Draining run of `flush_to_command_complete`'s read loop. -/
theorem flushCommandCompleteAux_drain (pre : List Msg) :
    ∀ (fuel : Nat) (c : Cursor) (rest : List Msg),
    pre.length < fuel →
    (∀ m ∈ pre, m.isCommandComplete = false) →
    c.connection.stream = pre ++ .commandComplete :: rest →
    flushCommandCompleteAux fuel c
      = (.ok (), { c with
          _message := some .commandComplete,
          connection := { c.connection with stream := rest } }) := by
  induction pre with
  | nil =>
    intro fuel c rest hfuel _ hs
    cases fuel with
    | zero => omega
    | succ f => simp [flushCommandCompleteAux, Connection.read_message, hs]
  | cons m pre' ih =>
    intro fuel c rest hfuel hpre hs
    cases fuel with
    | zero => simp at hfuel
    | succ f =>
      have hm := hpre m (by simp)
      have ih' := ih f
        { c with connection :=
            { c.connection with stream := pre' ++ .commandComplete :: rest } }
        rest (by simpa using Nat.lt_of_succ_lt_succ hfuel)
        (fun x hx => hpre x (by simp [hx])) rfl
      cases m <;>
        simp_all [flushCommandCompleteAux, Connection.read_message,
          Msg.isCommandComplete]

/-- A normal return of the query-ready read loop leaves a `ReadyForQuery` in
the slot. -/
theorem flushQueryReadyAux_ok_slot :
    ∀ (fuel : Nat) (c c' : Cursor) (u : Unit),
    flushQueryReadyAux fuel c = (.ok u, c') →
    ∃ ts, c'._message = some (.readyForQuery ts) := by
  intro fuel
  induction fuel with
  | zero => intro c c' u h; simp [flushQueryReadyAux] at h
  | succ f ih =>
    intro c c' u h
    cases hs : c.connection.stream with
    | nil => simp [flushQueryReadyAux, Connection.read_message, hs] at h
    | cons m rest =>
      cases m <;>
        simp [flushQueryReadyAux, Connection.read_message, hs] at h
      case readyForQuery ts =>
        exact ⟨ts, by simp [← h]⟩
      all_goals exact ih _ _ u h

/-- A normal return of the command-complete read loop leaves a
`CommandComplete` in the slot. -/
theorem flushCommandCompleteAux_ok_slot :
    ∀ (fuel : Nat) (c c' : Cursor) (u : Unit),
    flushCommandCompleteAux fuel c = (.ok u, c') →
    c'._message = some .commandComplete := by
  intro fuel
  induction fuel with
  | zero => intro c c' u h; simp [flushCommandCompleteAux] at h
  | succ f ih =>
    intro c c' u h
    cases hs : c.connection.stream with
    | nil => simp [flushCommandCompleteAux, Connection.read_message, hs] at h
    | cons m rest =>
      cases m <;>
        simp [flushCommandCompleteAux, Connection.read_message, hs] at h
      case commandComplete => simp [← h]
      all_goals exact ih _ _ u h

/-- `flush_to_query_ready` twice equals `flush_to_query_ready` once. -/
theorem flush_to_query_ready_idem (c : Cursor) :
    runTwice flush_to_query_ready c = flush_to_query_ready c := by
  cases hm : c._message
  case none => simp [runTwice, flush_to_query_ready, hm]
  case some m =>
  cases m
  case readyForQuery ts => simp [runTwice, flush_to_query_ready, hm]
  all_goals {
    rcases h2 : flushQueryReadyAux (c.connection.stream.length + 1) c
      with ⟨res2, c2⟩
    cases res2 with
    | error e => simp [runTwice, flush_to_query_ready, hm, h2]
    | ok u2 =>
      cases u2
      obtain ⟨ts, hts⟩ := flushQueryReadyAux_ok_slot _ c c2 () h2
      simp [runTwice, flush_to_query_ready, hm, h2, hts]
  }

/-- `flush_to_command_complete` twice equals `flush_to_command_complete`
once. -/
theorem flush_to_command_complete_idem (c : Cursor) :
    runTwice flush_to_command_complete c = flush_to_command_complete c := by
  cases hm : c._message
  case none => simp [runTwice, flush_to_command_complete, hm]
  case some m =>
  cases m
  case readyForQuery ts => simp [runTwice, flush_to_command_complete, hm]
  case commandComplete => simp [runTwice, flush_to_command_complete, hm]
  all_goals {
    rcases h2 : flushCommandCompleteAux (c.connection.stream.length + 1) c
      with ⟨res2, c2⟩
    cases res2 with
    | error e => simp [runTwice, flush_to_command_complete, hm, h2]
    | ok u2 =>
      cases u2
      have hts := flushCommandCompleteAux_ok_slot _ c c2 () h2
      simp [runTwice, flush_to_command_complete, hm, h2, hts]
  }

/-- C8: both resynchronization primitives are idempotent.
`flush_to_query_ready` is a no-op when the slot is empty or already holds a
`ReadyForQuery`, and otherwise drains to the next `ReadyForQuery`, recording
its transaction status and leaving it in the slot; `flush_to_command_complete`
is a no-op when the slot is empty, a `ReadyForQuery` or a `CommandComplete`,
and otherwise drains to the next `CommandComplete`; running either twice in a
row equals running it once. -/
theorem flush_primitives_idempotent (c : Cursor) :
    (c._message = none → flush_to_query_ready c = (.ok (), c)) ∧
    (∀ ts, c._message = some (.readyForQuery ts) →
      flush_to_query_ready c = (.ok (), c)) ∧
    (c._message = none → flush_to_command_complete c = (.ok (), c)) ∧
    (∀ ts, c._message = some (.readyForQuery ts) →
      flush_to_command_complete c = (.ok (), c)) ∧
    (c._message = some .commandComplete →
      flush_to_command_complete c = (.ok (), c)) ∧
    (∀ m pre ts rest, c._message = some m → m.isReadyForQuery = false →
      (∀ x ∈ pre, x.isReadyForQuery = false) →
      c.connection.stream = pre ++ .readyForQuery ts :: rest →
      flush_to_query_ready c = (.ok (), { c with
        _message := some (.readyForQuery ts),
        connection := { c.connection with
          stream := rest, transaction_status := some ts } })) ∧
    (∀ m pre rest, c._message = some m → m.isReadyForQuery = false →
      m.isCommandComplete = false →
      (∀ x ∈ pre, x.isCommandComplete = false) →
      c.connection.stream = pre ++ .commandComplete :: rest →
      flush_to_command_complete c = (.ok (), { c with
        _message := some .commandComplete,
        connection := { c.connection with stream := rest } })) ∧
    runTwice flush_to_query_ready c = flush_to_query_ready c ∧
    runTwice flush_to_command_complete c = flush_to_command_complete c := by
  refine ⟨?_, ?_, ?_, ?_, ?_, ?_, ?_,
    flush_to_query_ready_idem c, flush_to_command_complete_idem c⟩
  · intro h; simp [flush_to_query_ready, h]
  · intro ts h; simp [flush_to_query_ready, h]
  · intro h; simp [flush_to_command_complete, h]
  · intro ts h; simp [flush_to_command_complete, h]
  · intro h; simp [flush_to_command_complete, h]
  · intro m pre ts rest hm hrfq hpre hs
    have hlen : pre.length < c.connection.stream.length + 1 := by
      simp [hs]; omega
    have := flushQueryReadyAux_drain pre (c.connection.stream.length + 1) c
      ts rest hlen hpre hs
    cases m <;> simp_all [flush_to_query_ready, Msg.isReadyForQuery]
  · intro m pre rest hm hrfq hcc hpre hs
    have hlen : pre.length < c.connection.stream.length + 1 := by
      simp [hs]; omega
    have := flushCommandCompleteAux_drain pre (c.connection.stream.length + 1)
      c rest hlen hpre hs
    cases m <;> simp_all [flush_to_command_complete, Msg.isReadyForQuery,
      Msg.isCommandComplete]

/-- Witness for C8: draining a session that still holds unread rows. -/
theorem flush_primitives_idempotent_witness :
    flush_to_query_ready unreadRowsSample = (.ok (), { unreadRowsSample with
      _message := some (.readyForQuery 2),
      connection := { unreadRowsSample.connection with
        stream := [.other 3], transaction_status := some 2 } }) ∧
    runTwice flush_to_query_ready unreadRowsSample
      = flush_to_query_ready unreadRowsSample :=
  ⟨(flush_primitives_idempotent unreadRowsSample).2.2.2.2.2.1 (.dataRow [7])
      [.other 1] 2 [.other 3] rfl rfl (by decide) rfl,
   (flush_primitives_idempotent unreadRowsSample).2.2.2.2.2.2.2.1⟩

/-- `execute`'s read loop never changes the row count. -/
theorem executeLoopAux_rowcount :
    ∀ (fuel : Nat) (c : Cursor) (op : String),
    (executeLoopAux fuel c op).2.rowcount = c.rowcount := by
  intro fuel
  induction fuel with
  | zero => intro c op; simp [executeLoopAux]
  | succ f ih =>
    intro c op
    cases hs : c.connection.stream with
    | nil => simp [executeLoopAux, Connection.read_message, hs]
    | cons m rest =>
      cases m <;>
        simp [executeLoopAux, Connection.read_message, hs,
          Connection.process_message, ih]

/-- `execute`'s read loop raises a `QueryError` carrying the submitted SQL
text when, after a prefix of non-terminal messages, an `ErrorResponse`
arrives. -/
theorem executeLoopAux_error (pre : List Msg) :
    ∀ (fuel : Nat) (c : Cursor) (op d : String) (rest : List Msg),
    pre.length < fuel →
    (∀ m ∈ pre, m.continuesExecuteLoop = true) →
    c.connection.stream = pre ++ .errorResponse d :: rest →
    (executeLoopAux fuel c op).1 = .error (.queryError d op) := by
  induction pre with
  | nil =>
    intro fuel c op d rest hfuel _ hs
    cases fuel with
    | zero => omega
    | succ f => simp [executeLoopAux, Connection.read_message, hs]
  | cons m pre' ih =>
    intro fuel c op d rest hfuel hpre hs
    cases fuel with
    | zero => simp at hfuel
    | succ f =>
      have hm := hpre m (by simp)
      cases m with
      | errorResponse d2 => exact absurd hm (by simp [Msg.continuesExecuteLoop])
      | dataRow v => exact absurd hm (by simp [Msg.continuesExecuteLoop])
      | commandComplete => exact absurd hm (by simp [Msg.continuesExecuteLoop])
      | readyForQuery ts => exact absurd hm (by simp [Msg.continuesExecuteLoop])
      | rowDescription fields =>
        simp only [executeLoopAux, Connection.read_message, hs]
        exact ih f _ op d rest (by simpa using hfuel)
          (fun x hx => hpre x (by simp [hx]))
          (by simp [Connection.process_message])
      | copyInResponse =>
        simp only [executeLoopAux, Connection.read_message, hs]
        exact ih f _ op d rest (by simpa using hfuel)
          (fun x hx => hpre x (by simp [hx]))
          (by simp [Connection.process_message])
      | other tag =>
        simp only [executeLoopAux, Connection.read_message, hs]
        exact ih f _ op d rest (by simpa using hfuel)
          (fun x hx => hpre x (by simp [hx]))
          (by simp [Connection.process_message])

/-- C5: when the reply stream yields an `ErrorResponse` before any row (after
a prefix of messages that keep the read loop going), `execute` raises a
`QueryError` carrying the server diagnostic and the submitted SQL text, and
the row count is the unknown sentinel `-1` afterwards. -/
theorem execute_error_reply (c : Cursor) (op d : String) (pre rest : List Msg)
    (hclosed : c.isClosed = false)
    (hslot : c._message = none ∨ ∃ ts, c._message = some (.readyForQuery ts))
    (hpre : ∀ m ∈ pre, m.continuesExecuteLoop = true)
    (hs : c.connection.stream = pre ++ .errorResponse d :: rest) :
    (execute c op).1 = .error (.queryError d op) ∧
    (execute c op).2.rowcount = -1 := by
  have hflush : flush_to_query_ready c = (.ok (), c) := by
    rcases hslot with h | ⟨ts, h⟩ <;> simp [flush_to_query_ready, h]
  have hexec : execute c op
      = executeLoopAux (c.connection.stream.length + 1)
          { c with rowcount := -1,
                   connection := c.connection.write (.query op) } op := by
    simp [execute, hclosed, hflush, Connection.write]
  have hlen : pre.length < c.connection.stream.length + 1 := by
    simp [hs]; omega
  rw [hexec]
  constructor
  · exact executeLoopAux_error pre _ _ op d rest hlen hpre
      (by simp [Connection.write, hs])
  · simp [executeLoopAux_rowcount]

/-- Witness for C5: a concrete error reply after a result description. -/
theorem execute_error_reply_witness :
    (execute errorReplySample "SELECT 1").1
      = .error (.queryError "boom" "SELECT 1") ∧
    (execute errorReplySample "SELECT 1").2.rowcount = -1 :=
  execute_error_reply errorReplySample "SELECT 1" "boom"
    [.rowDescription [idCol "a"]] [] rfl (Or.inl rfl) (by decide) rfl

/-- `fetchone` on a row in the slot (default row shape, successful
formatting): bumps the row count, formats, and pulls one more message. -/
theorem fetchone_dataRow (c : Cursor) (r : List RawValue) (m : Msg)
    (t : List Msg) (vals : List RawValue)
    (htype : c.cursor_type = CursorType.default)
    (hm : c._message = some (.dataRow r))
    (hs : c.connection.stream = m :: t)
    (hvals : format_row_as_array c.description r = some vals) :
    fetchone c = (.ok (some (.array vals)), { c with
      rowcount := if c.rowcount = -1 then 1 else c.rowcount + 1,
      _message := some m,
      connection := { c.connection with stream := t } }) := by
  simp [fetchone, hm, row_formatter, htype, hvals, Connection.read_message, hs]

/-- Complete run of the `fetchall` loop over a result set of `rows` (each
formatting to a non-empty row) followed by `CommandComplete`: all rows are
returned formatted in arrival order, the slot ends on the `CommandComplete`,
the row count advances by the number of rows, and description, row-shape mode
and written log are untouched. -/
theorem fetchallAux_run (rows : List (List RawValue)) :
    ∀ (fuel : Nat) (c : Cursor) (rest : List Msg),
    rows.length < fuel →
    c.cursor_type = CursorType.default →
    (∀ r ∈ rows, (format_row_as_array c.description r).isSome = true) →
    (∀ r ∈ rows, (format_row_as_array c.description r).getD [] ≠ []) →
    resultSetLoaded c rows rest →
    (fetchallAux fuel c).1 = .ok (rows.map fun r =>
        Row.array ((format_row_as_array c.description r).getD [])) ∧
    (fetchallAux fuel c).2._message = some Msg.commandComplete ∧
    (fetchallAux fuel c).2.connection.stream = rest ∧
    (fetchallAux fuel c).2.rowcount = bumpRowcount c.rowcount rows.length ∧
    (fetchallAux fuel c).2.description = c.description ∧
    (fetchallAux fuel c).2.cursor_type = c.cursor_type ∧
    (fetchallAux fuel c).2.connection.written = c.connection.written := by
  induction rows with
  | nil =>
    intro fuel c rest hfuel htype hfmt hne hload
    simp only [resultSetLoaded] at hload
    obtain ⟨hm, hsr⟩ := hload
    cases fuel with
    | zero => omega
    | succ f => simp [fetchallAux, fetchone, hm, bumpRowcount, hsr]
  | cons r rs ih =>
    intro fuel c rest hfuel htype hfmt hne hload
    simp only [resultSetLoaded] at hload
    obtain ⟨hm, hsr⟩ := hload
    cases fuel with
    | zero => omega
    | succ f =>
      obtain ⟨vals, hvals⟩ := Option.isSome_iff_exists.mp (hfmt r (by simp))
      have hvne : vals ≠ [] := by
        have h := hne r (by simp)
        rw [hvals] at h
        simpa using h
      have htr : Row.truthy (.array vals) = true := by
        simp [Row.truthy, hvne]
      cases rs with
      | nil =>
        have hstep := fetchone_dataRow c r .commandComplete rest vals htype hm
          (by simpa using hsr) hvals
        have ih' := ih f
          { c with
            rowcount := if c.rowcount = -1 then 1 else c.rowcount + 1,
            _message := some Msg.commandComplete,
            connection := { c.connection with stream := rest } }
          rest (by simp at hfuel ⊢; omega) (by simpa using htype) (by simp)
          (by simp) (by simp [resultSetLoaded])
        rcases h1 : fetchallAux f
          { c with
            rowcount := if c.rowcount = -1 then 1 else c.rowcount + 1,
            _message := some Msg.commandComplete,
            connection := { c.connection with stream := rest } }
          with ⟨res1, cf⟩
        rw [h1] at ih'
        simp only [fetchallAux, hstep, htr, if_true, h1]
        obtain ⟨e1, e2, e3, e4, e5, e6, e7⟩ := ih'
        simp [bumpRowcount] at e1 e2 e3 e4 e5 e6 e7
        rw [e1]
        simp [hvals, bumpRowcount, e2, e3, e4, e5, e6, e7]
      | cons r2 rs' =>
        have hstep := fetchone_dataRow c r (.dataRow r2)
          (rs'.map Msg.dataRow ++ Msg.commandComplete :: rest) vals htype hm
          (by simpa using hsr) hvals
        have ih' := ih f
          { c with
            rowcount := if c.rowcount = -1 then 1 else c.rowcount + 1,
            _message := some (Msg.dataRow r2),
            connection := { c.connection with
              stream := rs'.map Msg.dataRow ++ Msg.commandComplete :: rest } }
          rest (by simp at hfuel ⊢; omega) (by simpa using htype)
          (by intro x hx; simpa using hfmt x (by simp [hx]))
          (by intro x hx; simpa using hne x (by simp [hx]))
          (by simp [resultSetLoaded])
        rcases h1 : fetchallAux f
          { c with
            rowcount := if c.rowcount = -1 then 1 else c.rowcount + 1,
            _message := some (Msg.dataRow r2),
            connection := { c.connection with
              stream := rs'.map Msg.dataRow ++ Msg.commandComplete :: rest } }
          with ⟨res1, cf⟩
        rw [h1] at ih'
        simp only [fetchallAux, hstep, htr, if_true, h1]
        obtain ⟨e1, e2, e3, e4, e5, e6, e7⟩ := ih'
        simp [bumpRowcount] at e1 e2 e3 e4 e5 e6 e7
        rw [e1]
        simp [hvals, bumpRowcount, e2, e3, e4, e5, e6, e7]

/-- C1 counterexample: a result set whose single `DataRow` carries no values
formats to the empty row, which is falsy in Python, so `list(self.iterate())`
stops before yielding it: `fetchall()` returns zero rows instead of the one
(formatted) row the claim promises. -/
theorem fetchall_empty_row_counterexample :
    (fetchall emptyRowSample).1 = .ok [] ∧
    format_row_as_array emptyRowSample.description [] = some [] ∧
    ((.ok [] : Except Err (List Row)) ≠ .ok [Row.array []]) ∧
    (fetchall emptyRowSample).2.rowcount = 1 :=
  ⟨rfl, rfl, by simp, rfl⟩

/-- C1 (amended): for a result stream of N ≥ 0 `DataRow` replies followed by
`CommandComplete` in the lookahead slot and channel, provided every row
formats successfully to a NON-EMPTY row, `fetchall()` returns exactly those N
rows, formatted, in arrival order, and a `fetchone()` called immediately
afterwards returns `None`. -/
theorem fetchall_returns_rows (c : Cursor) (rows : List (List RawValue))
    (rest : List Msg)
    (htype : c.cursor_type = CursorType.default)
    (hfmt : ∀ r ∈ rows, (format_row_as_array c.description r).isSome = true)
    (hne : ∀ r ∈ rows, (format_row_as_array c.description r).getD [] ≠ [])
    (hload : resultSetLoaded c rows rest) :
    (fetchall c).1 = .ok (rows.map fun r =>
        Row.array ((format_row_as_array c.description r).getD [])) ∧
    (fetchone (fetchall c).2).1 = .ok none := by
  have hfuel : rows.length < c.connection.stream.length + 1 := by
    cases rows with
    | nil => simp
    | cons r rs =>
      simp only [resultSetLoaded] at hload
      obtain ⟨-, hsr⟩ := hload
      simp only [hsr, List.length_cons, List.length_append, List.length_map]
      omega
  have key := fetchallAux_run rows (c.connection.stream.length + 1) c rest
    hfuel htype hfmt hne hload
  refine ⟨key.1, ?_⟩
  have hcc := key.2.1
  simp only [fetchall] at hcc ⊢
  simp [fetchone, hcc]

/-- Witness for C1 (amended) on a concrete two-row result set. -/
theorem fetchall_returns_rows_witness :
    (fetchall twoRowSample).1 = .ok [Row.array [1], Row.array [2]] ∧
    (fetchone (fetchall twoRowSample).2).1 = .ok none := by
  have h := fetchall_returns_rows twoRowSample [[1], [2]] []
    rfl (by decide) (by decide)
    (by simp only [resultSetLoaded]; exact ⟨rfl, rfl⟩)
  exact ⟨by rw [h.1]; rfl, h.2⟩

/-- Consuming rows from a count of at least `1` adds exactly the number of
rows. -/
theorem bumpRowcount_of_pos (k : Nat) :
    ∀ (m : Int), 1 ≤ m → bumpRowcount m k = m + k := by
  induction k with
  | zero => intro m _; simp [bumpRowcount]
  | succ n ih =>
    intro m hm
    have hne : ¬ m = -1 := by omega
    rw [bumpRowcount, if_neg hne, ih (m + 1) (by omega)]
    push_cast
    ring

/-- Consuming `k` rows from the `-1` sentinel yields `k` (or keeps the
sentinel when `k = 0`). -/
theorem bumpRowcount_sentinel (k : Nat) :
    bumpRowcount (-1) k = if k = 0 then -1 else (k : Int) := by
  cases k with
  | zero => simp [bumpRowcount]
  | succ n =>
    rw [bumpRowcount, if_pos rfl, bumpRowcount_of_pos n 1 (by omega)]
    simp
    omega

/-- `fetchone` never decreases the row count. -/
theorem fetchone_rowcount_mono (c : Cursor) :
    c.rowcount ≤ (fetchone c).2.rowcount := by
  cases hm : c._message with
  | none => simp [fetchone, hm]
  | some m =>
    cases m <;> simp [fetchone, hm]
    case dataRow values =>
      split
      · simp
        split <;> omega
      · split
        · simp
          split <;> omega
        · simp
          split <;> omega

/-- The `fetchall` loop never decreases the row count. -/
theorem fetchallAux_rowcount_mono :
    ∀ (fuel : Nat) (c : Cursor),
    c.rowcount ≤ (fetchallAux fuel c).2.rowcount := by
  intro fuel
  induction fuel with
  | zero => intro c; simp [fetchallAux]
  | succ f ih =>
    intro c
    have h1 := fetchone_rowcount_mono c
    rcases hf : fetchone c with ⟨res, c'⟩
    rw [hf] at h1
    simp only at h1
    cases res with
    | error e => simp [fetchallAux, hf]; exact h1
    | ok o =>
      cases o with
      | none => simp [fetchallAux, hf]; exact h1
      | some row =>
        by_cases ht : row.truthy = true
        · have h2 := ih c'
          rcases h3 : fetchallAux f c' with ⟨res2, c''⟩
          rw [h3] at h2
          simp only at h2
          cases res2 with
          | error e => simp [fetchallAux, hf, ht, h3]; omega
          | ok rows => simp [fetchallAux, hf, ht, h3]; omega
        · simp [fetchallAux, hf, ht]; exact h1

/-- The `fetchmany` loop never decreases the row count. -/
theorem fetchmanyAux_rowcount_mono :
    ∀ (fuel : Nat) (c : Cursor) (size : Nat) (acc : List Row),
    c.rowcount ≤ (fetchmanyAux fuel c size acc).2.rowcount := by
  intro fuel
  induction fuel with
  | zero => intro c size acc; simp [fetchmanyAux]
  | succ f ih =>
    intro c size acc
    have h1 := fetchone_rowcount_mono c
    rcases hf : fetchone c with ⟨res, c'⟩
    rw [hf] at h1
    simp only at h1
    cases res with
    | error e => simp [fetchmanyAux, hf]; exact h1
    | ok o =>
      cases o with
      | none => simp [fetchmanyAux, hf]; exact h1
      | some row =>
        by_cases ht : row.truthy = true
        · by_cases hsz : acc.length + 1 ≥ size
          · simp [fetchmanyAux, hf, ht, hsz]; exact h1
          · have h2 := ih c' size (acc ++ [row])
            simp [fetchmanyAux, hf, ht, hsz]
            omega
        · simp [fetchmanyAux, hf, ht]; exact h1

/-- The query-ready drain loop never touches the row count. -/
theorem flushQueryReadyAux_rowcount :
    ∀ (fuel : Nat) (c : Cursor),
    (flushQueryReadyAux fuel c).2.rowcount = c.rowcount := by
  intro fuel
  induction fuel with
  | zero => intro c; simp [flushQueryReadyAux]
  | succ f ih =>
    intro c
    cases hs : c.connection.stream with
    | nil => simp [flushQueryReadyAux, Connection.read_message, hs]
    | cons m rest =>
      cases m <;> simp [flushQueryReadyAux, Connection.read_message, hs, ih]

/-- The command-complete drain loop never touches the row count. -/
theorem flushCommandCompleteAux_rowcount :
    ∀ (fuel : Nat) (c : Cursor),
    (flushCommandCompleteAux fuel c).2.rowcount = c.rowcount := by
  intro fuel
  induction fuel with
  | zero => intro c; simp [flushCommandCompleteAux]
  | succ f ih =>
    intro c
    cases hs : c.connection.stream with
    | nil => simp [flushCommandCompleteAux, Connection.read_message, hs]
    | cons m rest =>
      cases m <;>
        simp [flushCommandCompleteAux, Connection.read_message, hs, ih]

/-- `flush_to_query_ready` never touches the row count. -/
theorem flush_to_query_ready_rowcount (c : Cursor) :
    (flush_to_query_ready c).2.rowcount = c.rowcount := by
  cases hm : c._message with
  | none => simp [flush_to_query_ready, hm]
  | some m =>
    cases m <;>
      simp [flush_to_query_ready, hm, flushQueryReadyAux_rowcount]

/-- `flush_to_command_complete` never touches the row count. -/
theorem flush_to_command_complete_rowcount (c : Cursor) :
    (flush_to_command_complete c).2.rowcount = c.rowcount := by
  cases hm : c._message with
  | none => simp [flush_to_command_complete, hm]
  | some m =>
    cases m <;>
      simp [flush_to_command_complete, hm, flushCommandCompleteAux_rowcount]

/-- `nextset` never touches the row count. -/
theorem nextset_rowcount (c : Cursor) :
    (nextset c).2.rowcount = c.rowcount := by
  have hfl := flush_to_command_complete_rowcount c
  rcases hf : flush_to_command_complete c with ⟨res, c'⟩
  rw [hf] at hfl
  simp only at hfl
  cases res with
  | error e => simp [nextset, hf]; exact hfl
  | ok u =>
    cases hm : c'._message with
    | none => simp [nextset, hf, hm]; exact hfl
    | some m =>
      cases m <;> simp [nextset, hf, hm] <;> try exact hfl
      case commandComplete =>
        cases hr : c'.connection.read_message with
        | none => simp [hr]; exact hfl
        | some p =>
          rcases p with ⟨m2, conn2⟩
          cases m2 <;> simp [hr] <;> try exact hfl
          case rowDescription fields =>
            cases hr2 : conn2.read_message with
            | none => simp [hr2]; exact hfl
            | some p2 => simp [hr2]; exact hfl

/-- The copy loop never touches the row count. -/
theorem copyLoopAux_rowcount :
    ∀ (fuel : Nat) (c : Cursor) (sql : String) (data : Payload) (b : Nat),
    (copyLoopAux fuel c sql data b).2.rowcount = c.rowcount := by
  intro fuel
  induction fuel with
  | zero => intro c sql data b; simp [copyLoopAux]
  | succ f ih =>
    intro c sql data b
    cases hs : c.connection.stream with
    | nil => simp [copyLoopAux, Connection.read_message, hs]
    | cons m rest =>
      cases m <;>
        simp [copyLoopAux, Connection.read_message, hs,
          Connection.process_message, writeCopyPayload, Connection.write, ih]

/-- `copy` never touches the row count. -/
theorem copy_rowcount (c : Cursor) (sql : String) (data : Payload) (b : Nat) :
    (copy c sql data b).2.rowcount = c.rowcount := by
  unfold copy
  split
  · rfl
  · split
    case h_1 e c' heq =>
      have hfl := flush_to_query_ready_rowcount c
      rw [heq] at hfl
      simpa using hfl
    case h_2 u c' heq =>
      have hfl := flush_to_query_ready_rowcount c
      rw [heq] at hfl
      simp only at hfl ⊢
      split
      case h_1 e c'' heq2 =>
        have h2 := congrArg (fun q => (q.2.rowcount : Int)) heq2
        simp only [copyLoopAux_rowcount] at h2
        simp at h2 ⊢
        omega
      case h_2 u2 c'' heq2 =>
        have h2 := congrArg (fun q => (q.2.rowcount : Int)) heq2
        simp only [copyLoopAux_rowcount] at h2
        split <;> simp_all

/-- Errors from the query-ready drain loop are only the (unreachable with
sufficient fuel) blocked-read marker, never a query error. -/
theorem flushQueryReadyAux_error_blocked :
    ∀ (fuel : Nat) (c c' : Cursor) (e : Err),
    flushQueryReadyAux fuel c = (.error e, c') → e = .blocked := by
  intro fuel
  induction fuel with
  | zero => intro c c' e h; simp [flushQueryReadyAux] at h; exact h.1.symm
  | succ f ih =>
    intro c c' e h
    cases hs : c.connection.stream with
    | nil =>
      simp [flushQueryReadyAux, Connection.read_message, hs] at h
      exact h.1.symm
    | cons m rest =>
      cases m <;>
        simp [flushQueryReadyAux, Connection.read_message, hs] at h
      all_goals exact ih _ _ e h

/-- A loaded result set fits in the fuel `stream.length + 1`. -/
theorem resultSetLoaded_fuel (c : Cursor) (rows : List (List RawValue))
    (rest : List Msg) (h : resultSetLoaded c rows rest) :
    rows.length < c.connection.stream.length + 1 := by
  cases rows with
  | nil => simp
  | cons r rs =>
    simp only [resultSetLoaded] at h
    obtain ⟨-, hsr⟩ := h
    simp only [hsr, List.length_cons, List.length_append, List.length_map]
    omega

/-- A flush-to-query-ready failure can only be the blocked-read marker. -/
theorem flush_to_query_ready_error_blocked (c c' : Cursor) (e : Err)
    (h : flush_to_query_ready c = (.error e, c')) : e = .blocked := by
  cases hm : c._message with
  | none => simp [flush_to_query_ready, hm] at h
  | some m =>
    cases m <;> simp [flush_to_query_ready, hm] at h
    all_goals exact flushQueryReadyAux_error_blocked _ _ _ _ h

/-- C6: the row count starts each (non-rejected) `execute` at the sentinel
`-1`; `fetchone` on a row sets it to `1` from the sentinel and otherwise
increments it; no fetch, navigation, flush, copy or close operation ever
decreases it; `fetchone` on a terminal marker leaves the cursor unchanged;
and consuming `N` rows to completion yields row count `N` for `N > 0` and
leaves the sentinel for `N = 0`. -/
theorem rowcount_lifecycle :
    (∀ (c : Cursor) (op : String),
      ((execute c op).1 = .ok () ∨
        (∃ d s, (execute c op).1 = .error (.queryError d s))) →
      (execute c op).2.rowcount = -1) ∧
    (∀ (c : Cursor) (values : List RawValue),
      c._message = some (.dataRow values) →
      (fetchone c).2.rowcount =
        (if c.rowcount = -1 then 1 else c.rowcount + 1)) ∧
    (∀ c : Cursor, c.rowcount ≤ (fetchone c).2.rowcount) ∧
    (∀ c : Cursor, c.rowcount ≤ (fetchall c).2.rowcount) ∧
    (∀ (c : Cursor) (size : Option Nat),
      c.rowcount ≤ (fetchmany c size).2.rowcount) ∧
    (∀ c : Cursor, (nextset c).2.rowcount = c.rowcount) ∧
    (∀ c : Cursor, (flush_to_query_ready c).2.rowcount = c.rowcount) ∧
    (∀ c : Cursor, (flush_to_command_complete c).2.rowcount = c.rowcount) ∧
    (∀ (c : Cursor) (sql : String) (data : Payload) (b : Nat),
      (copy c sql data b).2.rowcount = c.rowcount) ∧
    (∀ c : Cursor, (close c).rowcount = c.rowcount) ∧
    (∀ c : Cursor, c._message = some .commandComplete →
      fetchone c = (.ok none, c)) ∧
    (∀ (c : Cursor) (ts : Nat), c._message = some (.readyForQuery ts) →
      fetchone c = (.ok none, c)) ∧
    (∀ (c : Cursor) (rows : List (List RawValue)) (rest : List Msg),
      c.rowcount = -1 →
      c.cursor_type = CursorType.default →
      (∀ r ∈ rows, (format_row_as_array c.description r).isSome = true) →
      (∀ r ∈ rows, (format_row_as_array c.description r).getD [] ≠ []) →
      resultSetLoaded c rows rest →
      (fetchall c).2.rowcount =
        (if rows.length = 0 then -1 else (rows.length : Int))) := by
  refine ⟨?_, ?_, fetchone_rowcount_mono, ?_, ?_, nextset_rowcount,
    flush_to_query_ready_rowcount, flush_to_command_complete_rowcount,
    copy_rowcount, fun c => rfl, ?_, ?_, ?_⟩
  · intro c op h
    unfold execute at h ⊢
    split at h
    · rcases h with h | ⟨d, s, h⟩ <;> simp at h
    · rename_i hcl
      split at h
      case h_1 e c' heq =>
        have he := flush_to_query_ready_error_blocked c c' e heq
        subst he
        rcases h with h | ⟨d, s, h⟩ <;> simp at h
      case h_2 u c' heq =>
        simp [heq, executeLoopAux_rowcount, hcl]
  · intro c values hm
    simp [fetchone, hm]
    split
    · simp
    · split <;> simp
  · intro c
    exact fetchallAux_rowcount_mono _ c
  · intro c size
    exact fetchmanyAux_rowcount_mono _ c _ []
  · intro c hm
    simp [fetchone, hm]
  · intro c ts hm
    simp [fetchone, hm]
  · intro c rows rest hrc htype hfmt hne hload
    have key := fetchallAux_run rows (c.connection.stream.length + 1) c rest
      (resultSetLoaded_fuel c rows rest hload) htype hfmt hne hload
    have h4 := key.2.2.2.1
    simp only [fetchall]
    rw [h4, hrc, bumpRowcount_sentinel]

/-- Witness for C6 at concrete cursors: first row sets the count to 1, a
consumed two-row set ends at 2, a failed execute leaves the sentinel. -/
theorem rowcount_lifecycle_witness :
    (fetchone twoRowSample).2.rowcount = 1 ∧
    (fetchall twoRowSample).2.rowcount = 2 ∧
    (execute errorReplySample "SELECT 1").2.rowcount = -1 := by
  refine ⟨?_, ?_, ?_⟩
  · rw [rowcount_lifecycle.2.1 twoRowSample [1] rfl]
    rfl
  · rw [rowcount_lifecycle.2.2.2.2.2.2.2.2.2.2.2.2 twoRowSample [[1], [2]] []
      rfl rfl (by decide) (by decide)
      (by simp only [resultSetLoaded]; exact ⟨rfl, rfl⟩)]
    rfl
  · exact rowcount_lifecycle.1 errorReplySample "SELECT 1"
      (Or.inr ⟨"boom", "SELECT 1", rfl⟩)

/-- Drain phase of the copy loop: messages that keep the loop going, then the
`ReadyForQuery`, are consumed without further writes. -/
theorem copyLoopAux_drain_ready (pre : List Msg) :
    ∀ (fuel : Nat) (c : Cursor) (sql : String) (data : Payload) (b : Nat)
      (ts : Nat) (rest : List Msg),
    pre.length < fuel →
    (∀ m ∈ pre, m.continuesCopyLoop = true) →
    c.connection.stream = pre ++ .readyForQuery ts :: rest →
    (copyLoopAux fuel c sql data b).1 = .ok () ∧
    (copyLoopAux fuel c sql data b).2.connection.written
      = c.connection.written ∧
    (copyLoopAux fuel c sql data b).2.connection.stream = rest ∧
    (copyLoopAux fuel c sql data b).2.error = c.error := by
  induction pre with
  | nil =>
    intro fuel c sql data b ts rest hfuel _ hs
    cases fuel with
    | zero => omega
    | succ f =>
      simp [copyLoopAux, Connection.read_message, hs, Connection.process_message]
  | cons m pre' ih =>
    intro fuel c sql data b ts rest hfuel hpre hs
    cases fuel with
    | zero => simp at hfuel
    | succ f =>
      have hm := hpre m (by simp)
      cases m with
      | errorResponse d => exact absurd hm (by simp [Msg.continuesCopyLoop])
      | copyInResponse => exact absurd hm (by simp [Msg.continuesCopyLoop])
      | readyForQuery ts2 => exact absurd hm (by simp [Msg.continuesCopyLoop])
      | rowDescription fields =>
        simp only [copyLoopAux, Connection.read_message, hs]
        have := ih f
          { c with connection :=
              ({ c.connection with
                  stream := pre' ++ .readyForQuery ts :: rest } :
                Connection).process_message (some (.rowDescription fields)) }
          sql data b ts rest (by simpa using hfuel)
          (fun x hx => hpre x (by simp [hx]))
          (by simp [Connection.process_message])
        simpa [Connection.process_message] using this
      | dataRow v =>
        simp only [copyLoopAux, Connection.read_message, hs]
        have := ih f
          { c with connection :=
              ({ c.connection with
                  stream := pre' ++ .readyForQuery ts :: rest } :
                Connection).process_message (some (.dataRow v)) }
          sql data b ts rest (by simpa using hfuel)
          (fun x hx => hpre x (by simp [hx]))
          (by simp [Connection.process_message])
        simpa [Connection.process_message] using this
      | commandComplete =>
        simp only [copyLoopAux, Connection.read_message, hs]
        have := ih f
          { c with connection :=
              ({ c.connection with
                  stream := pre' ++ .readyForQuery ts :: rest } :
                Connection).process_message (some (.commandComplete)) }
          sql data b ts rest (by simpa using hfuel)
          (fun x hx => hpre x (by simp [hx]))
          (by simp [Connection.process_message])
        simpa [Connection.process_message] using this
      | other tag =>
        simp only [copyLoopAux, Connection.read_message, hs]
        have := ih f
          { c with connection :=
              ({ c.connection with
                  stream := pre' ++ .readyForQuery ts :: rest } :
                Connection).process_message (some (.other tag)) }
          sql data b ts rest (by simpa using hfuel)
          (fun x hx => hpre x (by simp [hx]))
          (by simp [Connection.process_message])
        simpa [Connection.process_message] using this

/-- Full successful copy loop: after a prefix of loop-continuing messages the
`CopyInResponse` triggers exactly one payload write followed by one
`CopyDone`, then the loop drains to the `ReadyForQuery`. -/
theorem copyLoopAux_success (pre1 : List Msg) :
    ∀ (fuel : Nat) (c : Cursor) (sql : String) (data : Payload) (b : Nat)
      (pre2 : List Msg) (ts : Nat) (rest : List Msg),
    pre1.length + pre2.length + 1 < fuel →
    (∀ m ∈ pre1, m.continuesCopyLoop = true) →
    (∀ m ∈ pre2, m.continuesCopyLoop = true) →
    c.connection.stream
      = pre1 ++ .copyInResponse :: pre2 ++ .readyForQuery ts :: rest →
    (copyLoopAux fuel c sql data b).1 = .ok () ∧
    (copyLoopAux fuel c sql data b).2.connection.written
      = c.connection.written ++ [payloadMsg data b, .copyDone] ∧
    (copyLoopAux fuel c sql data b).2.connection.stream = rest ∧
    (copyLoopAux fuel c sql data b).2.error = c.error := by
  induction pre1 with
  | nil =>
    intro fuel c sql data b pre2 ts rest hfuel _ hpre2 hs
    cases fuel with
    | zero => omega
    | succ f =>
      cases data with
      | memory size =>
        simp only [copyLoopAux, Connection.read_message, hs, List.nil_append]
        have := copyLoopAux_drain_ready pre2 f
          { c with connection :=
              ((({ c.connection with
                  stream := pre2 ++ .readyForQuery ts :: rest } :
                Connection).process_message
                  (some .copyInResponse)).write
                    (.copyData size)).write .copyDone }
          sql (.memory size) b ts rest (by omega) hpre2
          (by simp [Connection.process_message, Connection.write])
        simpa [Connection.process_message, Connection.write, writeCopyPayload,
          payloadMsg] using this
      | streamed size =>
        simp only [copyLoopAux, Connection.read_message, hs, List.nil_append]
        have := copyLoopAux_drain_ready pre2 f
          { c with connection :=
              ((({ c.connection with
                  stream := pre2 ++ .readyForQuery ts :: rest } :
                Connection).process_message
                  (some .copyInResponse)).write
                    (.copyStream size b)).write .copyDone }
          sql (.streamed size) b ts rest (by omega) hpre2
          (by simp [Connection.process_message, Connection.write])
        simpa [Connection.process_message, Connection.write, writeCopyPayload,
          payloadMsg] using this
  | cons m pre1' ih =>
    intro fuel c sql data b pre2 ts rest hfuel hpre1 hpre2 hs
    cases fuel with
    | zero => omega
    | succ f =>
      have hm := hpre1 m (by simp)
      cases m with
      | errorResponse d => exact absurd hm (by simp [Msg.continuesCopyLoop])
      | copyInResponse => exact absurd hm (by simp [Msg.continuesCopyLoop])
      | readyForQuery ts2 => exact absurd hm (by simp [Msg.continuesCopyLoop])
      | rowDescription fields =>
        simp only [copyLoopAux, Connection.read_message, hs]
        have := ih f
          { c with connection :=
              ({ c.connection with
                  stream := pre1' ++ .copyInResponse :: pre2
                    ++ .readyForQuery ts :: rest } :
                Connection).process_message (some (.rowDescription fields)) }
          sql data b pre2 ts rest (by simp at hfuel ⊢; omega)
          (fun x hx => hpre1 x (by simp [hx])) hpre2
          (by simp [Connection.process_message])
        simpa [Connection.process_message] using this
      | dataRow v =>
        simp only [copyLoopAux, Connection.read_message, hs]
        have := ih f
          { c with connection :=
              ({ c.connection with
                  stream := pre1' ++ .copyInResponse :: pre2
                    ++ .readyForQuery ts :: rest } :
                Connection).process_message (some (.dataRow v)) }
          sql data b pre2 ts rest (by simp at hfuel ⊢; omega)
          (fun x hx => hpre1 x (by simp [hx])) hpre2
          (by simp [Connection.process_message])
        simpa [Connection.process_message] using this
      | commandComplete =>
        simp only [copyLoopAux, Connection.read_message, hs]
        have := ih f
          { c with connection :=
              ({ c.connection with
                  stream := pre1' ++ .copyInResponse :: pre2
                    ++ .readyForQuery ts :: rest } :
                Connection).process_message (some .commandComplete) }
          sql data b pre2 ts rest (by simp at hfuel ⊢; omega)
          (fun x hx => hpre1 x (by simp [hx])) hpre2
          (by simp [Connection.process_message])
        simpa [Connection.process_message] using this
      | other tag =>
        simp only [copyLoopAux, Connection.read_message, hs]
        have := ih f
          { c with connection :=
              ({ c.connection with
                  stream := pre1' ++ .copyInResponse :: pre2
                    ++ .readyForQuery ts :: rest } :
                Connection).process_message (some (.other tag)) }
          sql data b pre2 ts rest (by simp at hfuel ⊢; omega)
          (fun x hx => hpre1 x (by simp [hx])) hpre2
          (by simp [Connection.process_message])
        simpa [Connection.process_message] using this

/-- The copy loop raises a `QueryError` carrying the submitted SQL text when
an `ErrorResponse` arrives, whether before or after the data phase. -/
theorem copyLoopAux_raises (pre : List Msg) :
    ∀ (fuel : Nat) (c : Cursor) (sql : String) (data : Payload) (b : Nat)
      (d : String) (rest : List Msg),
    pre.length < fuel →
    (∀ m ∈ pre, m.notErrorOrReady = true) →
    c.connection.stream = pre ++ .errorResponse d :: rest →
    (copyLoopAux fuel c sql data b).1 = .error (.queryError d sql) := by
  induction pre with
  | nil =>
    intro fuel c sql data b d rest hfuel _ hs
    cases fuel with
    | zero => omega
    | succ f => simp [copyLoopAux, Connection.read_message, hs]
  | cons m pre' ih =>
    intro fuel c sql data b d rest hfuel hpre hs
    cases fuel with
    | zero => simp at hfuel
    | succ f =>
      have hm := hpre m (by simp)
      cases m with
      | errorResponse d2 => exact absurd hm (by simp [Msg.notErrorOrReady])
      | readyForQuery ts => exact absurd hm (by simp [Msg.notErrorOrReady])
      | copyInResponse =>
        cases data with
        | memory size =>
          simp only [copyLoopAux, Connection.read_message, hs]
          exact ih f _ sql (.memory size) b d rest (by simpa using hfuel)
            (fun x hx => hpre x (by simp [hx]))
            (by simp [Connection.process_message, Connection.write,
              writeCopyPayload])
        | streamed size =>
          simp only [copyLoopAux, Connection.read_message, hs]
          exact ih f _ sql (.streamed size) b d rest (by simpa using hfuel)
            (fun x hx => hpre x (by simp [hx]))
            (by simp [Connection.process_message, Connection.write,
              writeCopyPayload])
      | rowDescription fields =>
        simp only [copyLoopAux, Connection.read_message, hs]
        exact ih f _ sql data b d rest (by simpa using hfuel)
          (fun x hx => hpre x (by simp [hx]))
          (by simp [Connection.process_message])
      | dataRow v =>
        simp only [copyLoopAux, Connection.read_message, hs]
        exact ih f _ sql data b d rest (by simpa using hfuel)
          (fun x hx => hpre x (by simp [hx]))
          (by simp [Connection.process_message])
      | commandComplete =>
        simp only [copyLoopAux, Connection.read_message, hs]
        exact ih f _ sql data b d rest (by simpa using hfuel)
          (fun x hx => hpre x (by simp [hx]))
          (by simp [Connection.process_message])
      | other tag =>
        simp only [copyLoopAux, Connection.read_message, hs]
        exact ih f _ sql data b d rest (by simpa using hfuel)
          (fun x hx => hpre x (by simp [hx]))
          (by simp [Connection.process_message])

/-- C3: a `copy` whose reply stream contains the `CopyInResponse` writes the
`Query`, then exactly one payload message (one data chunk for an in-memory
payload; ⌈S∕C⌉ wire chunks for a streamed source of size S and chunk size C,
per the spec-modelled `wireChunks`) followed by exactly one `CopyDone`, and
keeps reading until the `ReadyForQuery` is consumed; an `ErrorResponse` at any
point of the loop (before or during the data phase) raises a `QueryError`
carrying the submitted SQL text. -/
theorem copy_emits_chunks_and_resyncs (c : Cursor) (sql : String)
    (data : Payload) (b : Nat)
    (hclosed : c.isClosed = false)
    (hslot : c._message = none ∨ ∃ ts0, c._message = some (.readyForQuery ts0))
    (herr : c.error = none) :
    (∀ (pre1 pre2 rest : List Msg) (ts : Nat),
      (∀ m ∈ pre1, m.continuesCopyLoop = true) →
      (∀ m ∈ pre2, m.continuesCopyLoop = true) →
      c.connection.stream
        = pre1 ++ .copyInResponse :: pre2 ++ .readyForQuery ts :: rest →
      (copy c sql data b).1 = .ok () ∧
      (copy c sql data b).2.connection.written
        = c.connection.written ++ [.query sql, payloadMsg data b, .copyDone] ∧
      (copy c sql data b).2.connection.stream = rest) ∧
    (∀ (pre rest : List Msg) (d : String),
      (∀ m ∈ pre, m.notErrorOrReady = true) →
      c.connection.stream = pre ++ .errorResponse d :: rest →
      (copy c sql data b).1 = .error (.queryError d sql)) ∧
    ((payloadMsg data b).wireChunks
      = match data with
        | .memory _ => 1
        | .streamed s => s ⌈/⌉ b) := by
  have hflush : flush_to_query_ready c = (.ok (), c) := by
    rcases hslot with h | ⟨ts0, h⟩ <;> simp [flush_to_query_ready, h]
  refine ⟨?_, ?_, by cases data <;> rfl⟩
  · intro pre1 pre2 rest ts hpre1 hpre2 hs
    unfold copy
    rw [hflush]
    simp only [hclosed, Bool.false_eq_true, if_false]
    have key := copyLoopAux_success pre1
      ((c.connection.write (OutMsg.query sql)).stream.length + 1)
      { c with connection := c.connection.write (.query sql) } sql data b pre2
      ts rest
      (by simp only [Connection.write, hs, List.length_append,
            List.length_cons]
          omega)
      hpre1 hpre2
      (by simp [Connection.write, hs])
    rcases hl : copyLoopAux
        ((c.connection.write (OutMsg.query sql)).stream.length + 1)
        { c with connection := c.connection.write (.query sql) } sql data b
      with ⟨res2, c''⟩
    rw [hl] at key
    obtain ⟨k1, k2, k3, k4⟩ := key
    simp only [Prod.fst, Prod.snd] at k1 k2 k3 k4
    subst k1
    have k4n := k4.trans herr
    simp [k2, k3, k4n, Connection.write]
  · intro pre rest d hpre hs
    unfold copy
    rw [hflush]
    simp only [hclosed, Bool.false_eq_true, if_false]
    have key := copyLoopAux_raises pre
      ((c.connection.write (OutMsg.query sql)).stream.length + 1)
      { c with connection := c.connection.write (.query sql) } sql data b d
      rest
      (by simp only [Connection.write, hs, List.length_append,
            List.length_cons]
          omega)
      hpre
      (by simp [Connection.write, hs])
    rcases hl : copyLoopAux
        ((c.connection.write (OutMsg.query sql)).stream.length + 1)
        { c with connection := c.connection.write (.query sql) } sql data b
      with ⟨res2, c''⟩
    rw [hl] at key
    simp only [Prod.fst] at key
    subst key
    simp

/-- Witness for C3: a concrete copy session, with both payload shapes and the
error path. -/
theorem copy_emits_chunks_and_resyncs_witness :
    (copy copySample "COPY t" (.memory 10) 4).2.connection.written
      = [.query "COPY t", .copyData 10, .copyDone] ∧
    (copy copySample "COPY t" (.streamed 10) 4).2.connection.written
      = [.query "COPY t", .copyStream 10 4, .copyDone] ∧
    (payloadMsg (.streamed 10) 4).wireChunks = 3 ∧
    (copy errorReplySample "COPY t" (.memory 10) 4).1
      = .error (.queryError "boom" "COPY t") := by
  refine ⟨?_, ?_, ?_, ?_⟩
  · have h := (copy_emits_chunks_and_resyncs copySample "COPY t" (.memory 10)
      4 rfl (Or.inl rfl) rfl).1 [.other 0] [.commandComplete] [] 1
      (by decide) (by decide) rfl
    rw [h.2.1]
    rfl
  · have h := (copy_emits_chunks_and_resyncs copySample "COPY t"
      (.streamed 10) 4 rfl (Or.inl rfl) rfl).1 [.other 0] [.commandComplete]
      [] 1 (by decide) (by decide) rfl
    rw [h.2.1]
    rfl
  · have h := (copy_emits_chunks_and_resyncs copySample "COPY t"
      (.streamed 10) 4 rfl (Or.inl rfl) rfl).2.2
    rw [h]
    rfl
  · exact (copy_emits_chunks_and_resyncs errorReplySample "COPY t"
      (.memory 10) 4 rfl (Or.inl rfl) rfl).2.1 [.rowDescription [idCol "a"]]
      [] "boom" (by decide) rfl

/-- C7 counterexample: `nextset` advances to a following result set (returns
`some true`) but leaves the previous set's description installed instead of
replacing it with the new `RowDescription`'s columns (named "b" here). -/
theorem nextset_stale_description_counterexample :
    (nextset staleDescSample).1 = .ok (some true) ∧
    ((nextset staleDescSample).2.description.getD []).map Column.name
      = ["a"] ∧
    (["a"] : List String) ≠ ["b"] :=
  ⟨rfl, rfl, by decide⟩

/-- The command-complete drain loop never touches the description. -/
theorem flushCommandCompleteAux_description :
    ∀ (fuel : Nat) (c : Cursor),
    (flushCommandCompleteAux fuel c).2.description = c.description := by
  intro fuel
  induction fuel with
  | zero => intro c; simp [flushCommandCompleteAux]
  | succ f ih =>
    intro c
    cases hs : c.connection.stream with
    | nil => simp [flushCommandCompleteAux, Connection.read_message, hs]
    | cons m rest =>
      cases m <;>
        simp [flushCommandCompleteAux, Connection.read_message, hs, ih]

/-- `flush_to_command_complete` never touches the description. -/
theorem flush_to_command_complete_description (c : Cursor) :
    (flush_to_command_complete c).2.description = c.description := by
  cases hm : c._message with
  | none => simp [flush_to_command_complete, hm]
  | some m =>
    cases m <;>
      simp [flush_to_command_complete, hm, flushCommandCompleteAux_description]

/-- `execute`'s read loop, on a run that ends at a row preceded by the result
set's `RowDescription`, installs that reply's column descriptors. -/
theorem executeLoopAux_description (pre : List Msg) :
    ∀ (fuel : Nat) (c : Cursor) (op : String) (fields : List Column)
      (vs : List RawValue) (rest : List Msg),
    pre.length + 1 < fuel →
    (∀ m ∈ pre, m.continuesExecuteLoop = true) →
    c.connection.stream
      = pre ++ .rowDescription fields :: .dataRow vs :: rest →
    (executeLoopAux fuel c op).2.description = some fields := by
  induction pre with
  | nil =>
    intro fuel c op fields vs rest hfuel _ hs
    cases fuel with
    | zero => omega
    | succ f =>
      cases f with
      | zero => omega
      | succ f2 =>
        simp [executeLoopAux, Connection.read_message, hs]
  | cons m pre' ih =>
    intro fuel c op fields vs rest hfuel hpre hs
    cases fuel with
    | zero => simp at hfuel
    | succ f =>
      have hm := hpre m (by simp)
      cases m with
      | errorResponse d2 => exact absurd hm (by simp [Msg.continuesExecuteLoop])
      | dataRow v => exact absurd hm (by simp [Msg.continuesExecuteLoop])
      | commandComplete => exact absurd hm (by simp [Msg.continuesExecuteLoop])
      | readyForQuery ts => exact absurd hm (by simp [Msg.continuesExecuteLoop])
      | rowDescription fields2 =>
        simp only [executeLoopAux, Connection.read_message, hs]
        exact ih f _ op fields vs rest (by simp at hfuel ⊢; omega)
          (fun x hx => hpre x (by simp [hx])) rfl
      | copyInResponse =>
        simp only [executeLoopAux, Connection.read_message, hs]
        exact ih f _ op fields vs rest (by simp at hfuel ⊢; omega)
          (fun x hx => hpre x (by simp [hx]))
          (by simp [Connection.process_message])
      | other tag =>
        simp only [executeLoopAux, Connection.read_message, hs]
        exact ih f _ op fields vs rest (by simp at hfuel ⊢; omega)
          (fun x hx => hpre x (by simp [hx]))
          (by simp [Connection.process_message])

/-- C7 (amended): the description is `None` before the first result set and
is replaced wholesale when a `RowDescription` is consumed during `execute`;
`nextset`'s advance to a following set, however, does NOT update the
description — it retains the previous result set's descriptors. -/
theorem description_lifecycle :
    (∀ (conn : Connection) (ct : CursorType) (ue : String),
      (initialCursor conn ct ue).description = none) ∧
    (∀ (c : Cursor) (op : String) (pre rest : List Msg)
        (fields : List Column) (vs : List RawValue),
      c.isClosed = false →
      (c._message = none ∨ ∃ ts, c._message = some (.readyForQuery ts)) →
      (∀ m ∈ pre, m.continuesExecuteLoop = true) →
      c.connection.stream
        = pre ++ .rowDescription fields :: .dataRow vs :: rest →
      (execute c op).2.description = some fields) ∧
    (∀ c : Cursor, (nextset c).2.description = c.description) := by
  refine ⟨fun conn ct ue => rfl, ?_, ?_⟩
  · intro c op pre rest fields vs hclosed hslot hpre hs
    have hflush : flush_to_query_ready c = (.ok (), c) := by
      rcases hslot with h | ⟨ts0, h⟩ <;> simp [flush_to_query_ready, h]
    unfold execute
    rw [hflush]
    simp only [hclosed, Bool.false_eq_true, if_false]
    exact executeLoopAux_description pre _ _ op fields vs rest
      (by simp only [Connection.write, hs, List.length_append,
            List.length_cons]
          omega)
      hpre (by simp [Connection.write, hs])
  · intro c
    have hfl := flush_to_command_complete_description c
    rcases hf : flush_to_command_complete c with ⟨res, c'⟩
    rw [hf] at hfl
    simp only at hfl
    cases res with
    | error e => simp [nextset, hf]; exact hfl
    | ok u =>
      cases hm : c'._message with
      | none => simp [nextset, hf, hm]; exact hfl
      | some m =>
        cases m <;> simp [nextset, hf, hm] <;> try exact hfl
        case commandComplete =>
          cases hr : c'.connection.read_message with
          | none => simp [hr]; exact hfl
          | some p =>
            rcases p with ⟨m2, conn2⟩
            cases m2 <;> simp [hr] <;> try exact hfl
            case rowDescription fields =>
              cases hr2 : conn2.read_message with
              | none => simp [hr2]; exact hfl
              | some p2 => simp [hr2]; exact hfl

/-- Witness for C7 (amended): `execute` installs the new description,
`nextset` leaves the old one in place. -/
theorem description_lifecycle_witness :
    ((execute descSample "SELECT 1").2.description.getD []).map Column.name
      = ["b"] ∧
    (nextset setBoundarySample).2.description = none := by
  constructor
  · rw [description_lifecycle.2.1 descSample "SELECT 1" [] []
      [idCol "b"] [5] rfl (Or.inl rfl) (by decide) rfl]
    rfl
  · rw [description_lifecycle.2.2 setBoundarySample]
    rfl

/-- C9 counterexample: with duplicate column names, the `OrderedDict` built by
`format_row_as_dict` collapses the columns (keeping the first position with
the last value), so the mapping's value sequence is not the positional
sequence and its keys are not the column names in column order. -/
theorem row_formatters_duplicate_names_counterexample :
    format_row_as_dict (some [idCol "a", idCol "a"]) [1, 2]
      = some [("a", 2)] ∧
    format_row_as_array (some [idCol "a", idCol "a"]) [1, 2]
      = some [1, 2] ∧
    (([("a", 2)] : List (String × RawValue)).map Prod.snd ≠ [1, 2]) ∧
    (([("a", 2)] : List (String × RawValue)).map Prod.fst
      ≠ ([idCol "a", idCol "a"].map Column.name)) :=
  ⟨rfl, rfl, by decide, by decide⟩

/-- Inserting a key not yet present appends it. -/
theorem odInsert_fresh (entries : List (String × RawValue)) (k : String)
    (v : RawValue) (h : k ∉ entries.map Prod.fst) :
    odInsert entries k v = entries ++ [(k, v)] := by
  have : entries.any (fun p => p.1 == k) = false := by
    rw [List.any_eq_false]
    intro p hp
    simp only [beq_iff_eq]
    intro he
    exact h (by exact List.mem_map.mpr ⟨p, hp, he⟩)
  simp [odInsert, this]

/-- Successful run of the positional formatter over the description's suffix
starting at index `n`. -/
theorem convertFrom_run (desc : List Column) :
    ∀ (values : List RawValue) (n : Nat),
    n + values.length ≤ desc.length →
    convertFrom (some desc) n values
      = some (((desc.drop n).zip values).map fun q => q.1.convert q.2) := by
  intro values
  induction values with
  | nil => intro n h; simp [convertFrom]
  | cons v vs ih =>
    intro n h
    simp only [List.length_cons] at h
    have hn : n < desc.length := by omega
    have hcol : colAt (some desc) n = some (desc.get ⟨n, hn⟩) := by
      simp [colAt, List.get?_eq_get hn]
    have hdrop : desc.drop n = desc.get ⟨n, hn⟩ :: desc.drop (n + 1) :=
      List.drop_eq_getElem_cons hn
    rw [convertFrom, hcol, ih (n + 1) (by omega), hdrop, List.zip_cons_cons,
      List.map_cons]

/-- Successful run of the mapping formatter over the description's suffix
starting at index `n`: with an accumulator whose keys are disjoint from the
(pairwise distinct) names still to be inserted, every insertion appends. -/
theorem dictFrom_run (desc : List Column) :
    ∀ (values : List RawValue) (n : Nat) (acc : List (String × RawValue)),
    n + values.length ≤ desc.length →
    ((acc.map Prod.fst)
      ++ (((desc.drop n).take values.length).map Column.name)).Nodup →
    dictFrom (some desc) n values acc
      = some (acc
          ++ ((desc.drop n).zip values).map fun q =>
              (q.1.name, q.1.convert q.2)) := by
  intro values
  induction values with
  | nil => intro n acc h _; simp [dictFrom]
  | cons v vs ih =>
    intro n acc h hnd
    simp only [List.length_cons] at h
    have hn : n < desc.length := by omega
    have hcol : colAt (some desc) n = some (desc.get ⟨n, hn⟩) := by
      simp [colAt, List.get?_eq_get hn]
    have hdrop : desc.drop n = desc.get ⟨n, hn⟩ :: desc.drop (n + 1) :=
      List.drop_eq_getElem_cons hn
    rw [hdrop] at hnd
    simp only [List.length_cons, List.take_succ_cons, List.map_cons] at hnd
    have hfresh : (desc.get ⟨n, hn⟩).name ∉ acc.map Prod.fst := by
      intro hmem
      have hd := List.disjoint_of_nodup_append hnd
      exact hd hmem (by simp)
    have hins := odInsert_fresh acc (desc.get ⟨n, hn⟩).name
      ((desc.get ⟨n, hn⟩).convert v) hfresh
    simp only [dictFrom, hcol]
    rw [hins]
    rw [ih (n + 1) (acc ++ [((desc.get ⟨n, hn⟩).name,
          (desc.get ⟨n, hn⟩).convert v)]) (by omega) ?hnd2]
    case hnd2 =>
      simp only [List.map_append, List.map_cons, List.map_nil]
      simpa [List.append_assoc] using hnd
    rw [hdrop, List.zip_cons_cons, List.map_cons, List.append_assoc,
      List.singleton_append]

/-- C9 (amended): for a raw row with one value per column and pairwise
distinct column names, `format_row_as_dict` and `format_row_as_array` apply
the same per-column conversion: the mapping's value sequence equals the
positional sequence and its key sequence equals the column names in column
order. -/
theorem row_formatters_agree (desc : List Column) (values : List RawValue)
    (hlen : values.length = desc.length)
    (hnd : (desc.map Column.name).Nodup) :
    format_row_as_array (some desc) values
      = some ((desc.zip values).map fun q => q.1.convert q.2) ∧
    format_row_as_dict (some desc) values
      = some ((desc.zip values).map fun q => (q.1.name, q.1.convert q.2)) ∧
    (((desc.zip values).map fun q => (q.1.name, q.1.convert q.2)).map
        Prod.snd
      = (desc.zip values).map fun q => q.1.convert q.2) ∧
    (((desc.zip values).map fun q => (q.1.name, q.1.convert q.2)).map
        Prod.fst
      = desc.map Column.name) := by
  refine ⟨?_, ?_, by simp [List.map_map], ?_⟩
  · simpa [format_row_as_array] using convertFrom_run desc values 0 (by omega)
  · have hnd0 : ((([] : List (String × RawValue)).map Prod.fst)
        ++ (((desc.drop 0).take values.length).map Column.name)).Nodup := by
      simpa [hlen, List.take_length] using hnd
    simpa [format_row_as_dict] using
      dictFrom_run desc values 0 [] (by omega) hnd0
  · rw [List.map_map]
    have hfst : (desc.zip values).map
        (Prod.fst ∘ fun q => (q.1.name, q.1.convert q.2))
        = ((desc.zip values).map Prod.fst).map Column.name := by
      rw [List.map_map]
      rfl
    rw [hfst, List.map_fst_zip desc values (by omega)]

/-- Witness for C9 (amended) at a concrete two-column row. -/
theorem row_formatters_agree_witness :
    format_row_as_array (some [idCol "x", idCol "y"]) [3, 4] = some [3, 4] ∧
    format_row_as_dict (some [idCol "x", idCol "y"]) [3, 4]
      = some [("x", 3), ("y", 4)] := by
  have h := row_formatters_agree [idCol "x", idCol "y"] [3, 4] rfl (by decide)
  exact ⟨by rw [h.1]; rfl, by rw [h.2.1]; rfl⟩

/-- The row formatter depends only on the row-shape mode and the
description. -/
theorem row_formatter_congr (c1 c2 : Cursor) (values : List RawValue)
    (ht : c1.cursor_type = c2.cursor_type)
    (hd : c1.description = c2.description) :
    row_formatter c1 values = row_formatter c2 values := by
  unfold row_formatter
  rw [ht, hd]

/-- `fetchone` ignores the closed flag: running it on the closed session
gives the same outcome and the closed version of the same state. -/
theorem fetchone_close (c : Cursor) :
    fetchone (close c) = ((fetchone c).1, close (fetchone c).2) := by
  cases hm : c._message with
  | none => simp [fetchone, close, hm, Connection.process_message]
  | some m =>
    cases m <;> simp [fetchone, close, hm, Connection.process_message]
    case dataRow values =>
      rw [row_formatter_congr
        { c with _closed := true, _message := some (.dataRow values),
                 rowcount := if c.rowcount = -1 then 1 else c.rowcount + 1 }
        { c with _message := some (.dataRow values),
                 rowcount := if c.rowcount = -1 then 1 else c.rowcount + 1 }
        values rfl rfl]
      cases hf : row_formatter
          { c with _message := some (.dataRow values),
                   rowcount := if c.rowcount = -1 then 1 else c.rowcount + 1 }
          values with
      | error e => simp [close]
      | ok row =>
        cases hr : c.connection.read_message with
        | none => simp [close]
        | some p => simp [close]

/-- The `fetchall` loop ignores the closed flag. -/
theorem fetchallAux_close :
    ∀ (fuel : Nat) (c : Cursor),
    fetchallAux fuel (close c)
      = ((fetchallAux fuel c).1, close (fetchallAux fuel c).2) := by
  intro fuel
  induction fuel with
  | zero => intro c; simp [fetchallAux]
  | succ f ih =>
    intro c
    rcases hfo : fetchone c with ⟨res, c'⟩
    have hcl := fetchone_close c
    rw [hfo] at hcl
    cases res with
    | error e => simp [fetchallAux, hcl, hfo]
    | ok o =>
      cases o with
      | none => simp [fetchallAux, hcl, hfo]
      | some row =>
        by_cases ht : row.truthy = true
        · rcases h2 : fetchallAux f c' with ⟨res2, c''⟩
          have ih' := ih c'
          rw [h2] at ih'
          cases res2 with
          | error e => simp [fetchallAux, hcl, hfo, ht, ih', h2]
          | ok rows => simp [fetchallAux, hcl, hfo, ht, ih', h2]
        · simp [fetchallAux, hcl, hfo, ht]

/-- `fetchall` ignores the closed flag. -/
theorem fetchall_close (c : Cursor) :
    fetchall (close c) = ((fetchall c).1, close (fetchall c).2) := by
  simpa [fetchall, close] using fetchallAux_close
    (c.connection.stream.length + 1) c

/-- The `fetchmany` loop ignores the closed flag. -/
theorem fetchmanyAux_close :
    ∀ (fuel : Nat) (c : Cursor) (size : Nat) (acc : List Row),
    fetchmanyAux fuel (close c) size acc
      = ((fetchmanyAux fuel c size acc).1,
          close (fetchmanyAux fuel c size acc).2) := by
  intro fuel
  induction fuel with
  | zero => intro c size acc; simp [fetchmanyAux]
  | succ f ih =>
    intro c size acc
    rcases hfo : fetchone c with ⟨res, c'⟩
    have hcl := fetchone_close c
    rw [hfo] at hcl
    cases res with
    | error e => simp [fetchmanyAux, hcl, hfo]
    | ok o =>
      cases o with
      | none => simp [fetchmanyAux, hcl, hfo]
      | some row =>
        by_cases ht : row.truthy = true
        · by_cases hsz : acc.length + 1 ≥ size
          · simp [fetchmanyAux, hcl, hfo, ht, hsz]
          · simp [fetchmanyAux, hcl, hfo, ht, hsz, ih]
        · simp [fetchmanyAux, hcl, hfo, ht]

/-- `fetchmany` ignores the closed flag. -/
theorem fetchmany_close (c : Cursor) (size : Option Nat) :
    fetchmany (close c) size
      = ((fetchmany c size).1, close (fetchmany c size).2) := by
  cases size with
  | none =>
    simpa [fetchmany, close] using
      fetchmanyAux_close (c.connection.stream.length + 1) c c.arraysize []
  | some s =>
    cases s with
    | zero =>
      simpa [fetchmany, close] using
        fetchmanyAux_close (c.connection.stream.length + 1) c c.arraysize []
    | succ s2 =>
      simpa [fetchmany, close] using
        fetchmanyAux_close (c.connection.stream.length + 1) c (s2 + 1) []

/-- The command-complete drain loop ignores the closed flag. -/
theorem flushCommandCompleteAux_close :
    ∀ (fuel : Nat) (c : Cursor),
    flushCommandCompleteAux fuel (close c)
      = ((flushCommandCompleteAux fuel c).1,
          close (flushCommandCompleteAux fuel c).2) := by
  intro fuel
  induction fuel with
  | zero => intro c; simp [flushCommandCompleteAux]
  | succ f ih =>
    intro c
    cases hs : c.connection.stream with
    | nil => simp [flushCommandCompleteAux, Connection.read_message, hs, close]
    | cons m rest =>
      have ih' := ih { c with connection := { c.connection with stream := rest } }
      cases m <;>
        simp only [flushCommandCompleteAux, Connection.read_message, hs,
          close] <;>
        first
          | rfl
          | exact ih'

/-- `flush_to_command_complete` ignores the closed flag. -/
theorem flush_to_command_complete_close (c : Cursor) :
    flush_to_command_complete (close c)
      = ((flush_to_command_complete c).1,
          close (flush_to_command_complete c).2) := by
  cases hm : c._message with
  | none => simp [flush_to_command_complete, close, hm]
  | some m =>
    have key :=
      flushCommandCompleteAux_close (c.connection.stream.length + 1) c
    cases m <;> simp [flush_to_command_complete, close, hm] <;>
      simpa [close, hm] using key

/-- `nextset` ignores the closed flag. -/
theorem nextset_close (c : Cursor) :
    nextset (close c) = ((nextset c).1, close (nextset c).2) := by
  rcases hf : flush_to_command_complete c with ⟨res, c'⟩
  have hcl := flush_to_command_complete_close c
  rw [hf] at hcl
  simp only [Prod.fst, Prod.snd] at hcl
  unfold nextset
  rw [hcl, hf]
  cases res with
  | error e => simp
  | ok u =>
    cases hm : c'._message with
    | none => simp [hm, close]
    | some m =>
      cases m <;> simp [hm, close]
      case commandComplete =>
        cases hr : c'.connection.read_message with
        | none => simp [hr, hm]
        | some p =>
          rcases p with ⟨m2, conn2⟩
          cases m2 <;> simp [hr, hm]
          case rowDescription fields =>
            cases hr2 : conn2.read_message with
            | none => simp [hr2, hm]
            | some p2 => simp [hr2, hm]

/-- The row formatter never raises the closed error. -/
theorem row_formatter_no_closed (c : Cursor) (values : List RawValue) :
    row_formatter c values ≠ .error .closedError := by
  unfold row_formatter
  split
  · split <;> simp
  · split <;> simp
  · split <;> simp
  · simp

/-- `fetchone` never fails with the closed error. -/
theorem fetchone_no_closed (c : Cursor) :
    (fetchone c).1 ≠ .error .closedError := by
  cases hm : c._message with
  | none => simp [fetchone, hm]
  | some m =>
    cases m <;> simp [fetchone, hm]
    case dataRow values =>
      cases hf : row_formatter
          { c with _message := some (.dataRow values),
                   rowcount := if c.rowcount = -1 then 1 else c.rowcount + 1 }
          values with
      | error e =>
        have := row_formatter_no_closed
          { c with _message := some (.dataRow values),
                   rowcount := if c.rowcount = -1 then 1 else c.rowcount + 1 }
          values
        rw [hf] at this
        simp [hf]
        intro he
        exact this (by rw [he])
      | ok row =>
        cases hr : c.connection.read_message with
        | none => simp [hf, hr]
        | some p => simp [hf, hr]

/-- The `fetchall` loop never fails with the closed error. -/
theorem fetchallAux_no_closed :
    ∀ (fuel : Nat) (c : Cursor),
    (fetchallAux fuel c).1 ≠ .error .closedError := by
  intro fuel
  induction fuel with
  | zero => intro c; simp [fetchallAux]
  | succ f ih =>
    intro c
    have h1 := fetchone_no_closed c
    rcases hfo : fetchone c with ⟨res, c'⟩
    rw [hfo] at h1
    cases res with
    | error e => simp [fetchallAux, hfo]; simpa using h1
    | ok o =>
      cases o with
      | none => simp [fetchallAux, hfo]
      | some row =>
        by_cases ht : row.truthy = true
        · rcases h2 : fetchallAux f c' with ⟨res2, c''⟩
          have ih' := ih c'
          rw [h2] at ih'
          cases res2 with
          | error e => simp [fetchallAux, hfo, ht, h2]; simpa using ih'
          | ok rows => simp [fetchallAux, hfo, ht, h2]
        · simp [fetchallAux, hfo, ht]

/-- The `fetchmany` loop never fails with the closed error. -/
theorem fetchmanyAux_no_closed :
    ∀ (fuel : Nat) (c : Cursor) (size : Nat) (acc : List Row),
    (fetchmanyAux fuel c size acc).1 ≠ .error .closedError := by
  intro fuel
  induction fuel with
  | zero => intro c size acc; simp [fetchmanyAux]
  | succ f ih =>
    intro c size acc
    have h1 := fetchone_no_closed c
    rcases hfo : fetchone c with ⟨res, c'⟩
    rw [hfo] at h1
    cases res with
    | error e => simp [fetchmanyAux, hfo]; simpa using h1
    | ok o =>
      cases o with
      | none => simp [fetchmanyAux, hfo]
      | some row =>
        by_cases ht : row.truthy = true
        · by_cases hsz : acc.length + 1 ≥ size
          · simp [fetchmanyAux, hfo, ht, hsz]
          · simp [fetchmanyAux, hfo, ht, hsz]
            exact ih c' size (acc ++ [row])
        · simp [fetchmanyAux, hfo, ht]

/-- Errors from the command-complete drain loop are only the blocked-read
marker. -/
theorem flushCommandCompleteAux_error_blocked :
    ∀ (fuel : Nat) (c c' : Cursor) (e : Err),
    flushCommandCompleteAux fuel c = (.error e, c') → e = .blocked := by
  intro fuel
  induction fuel with
  | zero => intro c c' e h; simp [flushCommandCompleteAux] at h; exact h.1.symm
  | succ f ih =>
    intro c c' e h
    cases hs : c.connection.stream with
    | nil =>
      simp [flushCommandCompleteAux, Connection.read_message, hs] at h
      exact h.1.symm
    | cons m rest =>
      cases m <;>
        simp [flushCommandCompleteAux, Connection.read_message, hs] at h
      all_goals exact ih _ _ e h

/-- `nextset` never fails with the closed error. -/
theorem nextset_no_closed (c : Cursor) :
    (nextset c).1 ≠ .error .closedError := by
  rcases hf : flush_to_command_complete c with ⟨res, c'⟩
  unfold nextset
  rw [hf]
  cases res with
  | error e =>
    have he : e = .blocked := by
      cases hm : c._message with
      | none => rw [flush_to_command_complete, hm] at hf; simp at hf
      | some m =>
        cases m <;> simp [flush_to_command_complete, hm] at hf
        all_goals exact flushCommandCompleteAux_error_blocked _ _ _ _ hf
    subst he
    simp
  | ok u =>
    cases hm : c'._message with
    | none => simp [hm]
    | some m =>
      cases m <;> simp [hm]
      case commandComplete =>
        cases hr : c'.connection.read_message with
        | none => simp [hr]
        | some p =>
          rcases p with ⟨m2, conn2⟩
          cases m2 <;> simp [hr]
          case rowDescription fields =>
            cases hr2 : conn2.read_message with
            | none => simp [hr2]
            | some p2 => simp [hr2]

/-- C10: `close()` only sets the closed flag — it performs no channel reads
or writes and leaves the description, row count and lookahead slot unchanged
— and the fetch/navigation operations ignore the flag entirely: on a closed
session they behave exactly as on the open one (same outcome, same state up
to the flag) and never fail with the closed error, which only `execute` and
`copy` raise. -/
theorem close_only_sets_flag :
    (∀ c : Cursor, close c = { c with _closed := true }) ∧
    (∀ c : Cursor, (close c)._message = c._message ∧
      (close c).description = c.description ∧
      (close c).rowcount = c.rowcount ∧
      (close c).connection = c.connection ∧
      (close c)._closed = true) ∧
    (∀ c : Cursor,
      fetchone (close c) = ((fetchone c).1, close (fetchone c).2)) ∧
    (∀ c : Cursor,
      fetchall (close c) = ((fetchall c).1, close (fetchall c).2)) ∧
    (∀ (c : Cursor) (size : Option Nat),
      fetchmany (close c) size
        = ((fetchmany c size).1, close (fetchmany c size).2)) ∧
    (∀ c : Cursor,
      nextset (close c) = ((nextset c).1, close (nextset c).2)) ∧
    (∀ c : Cursor, (fetchone c).1 ≠ .error .closedError) ∧
    (∀ c : Cursor, (fetchall c).1 ≠ .error .closedError) ∧
    (∀ (c : Cursor) (size : Option Nat),
      (fetchmany c size).1 ≠ .error .closedError) ∧
    (∀ c : Cursor, (nextset c).1 ≠ .error .closedError) := by
  refine ⟨fun c => rfl, fun c => ⟨rfl, rfl, rfl, rfl, rfl⟩,
    fetchone_close, fetchall_close, fetchmany_close, nextset_close,
    fetchone_no_closed, fun c => ?_, ?_, nextset_no_closed⟩
  · exact fetchallAux_no_closed _ c
  · intro c size
    exact fetchmanyAux_no_closed _ c _ []

/-- Witness for C10: fetching from a session closed while a row sits in the
slot still returns the formatted row. -/
theorem close_only_sets_flag_witness :
    fetchone (close closableSample)
      = ((fetchone closableSample).1, close (fetchone closableSample).2) ∧
    (fetchone (close closableSample)).1 = .ok (some (Row.array [4])) := by
  refine ⟨close_only_sets_flag.2.2.1 closableSample, ?_⟩
  rw [close_only_sets_flag.2.2.1 closableSample]
  rfl

end VerticaCursor
